import Mathlib

/-!
# testframework: a shallow embedding of `testframework.go`

The Go helpers talk to an HTTP deployment and keep one piece of process-wide
state, the token cache `tokens`.  They are embedded as state-passing functions

* over an explicit `State` (the token cache, the requests handed to the HTTP
  client so far, the header lists `sendRequest` was called with, and the
  number of UUIDs drawn), and
* relative to a `World` that supplies everything the source takes from outside
  the repository: the `DH` environment variable, `http.NewRequest`, the network,
  `encoding/json`, header-name canonicalisation and the UUID generator.

A call ends in one of three ways (`Outcome`): it returns, a `require.*`
assertion stops the current test, or the process panics.
-/

namespace Testframework

/-! ## Dynamic values -/

/-- Dynamic value held in an `interface{}` after JSON decoding. Numbers keep
their literal text; nothing in the library computes with them. -/
inductive Json where
  | null : Json
  | bool (b : Bool) : Json
  | num (literal : String) : Json
  | str (s : String) : Json
  | arr (elems : List Json) : Json
  | obj (fields : List (String × Json)) : Json

/-- Go `map[string]interface{}`, as an association list read by first match. -/
abbrev Obj := List (String × Json)

/-- Map index `m[key]`; `none` is the nil interface of an absent key. -/
def Obj.index (m : Obj) (key : String) : Option Json :=
  m.lookup key

/-- Single-value type assertion `x.(string)`: `none` means the assertion
panics (absent key, nil, or a value of another type). -/
def assertString : Option Json → Option String
  | some (Json.str s) => some s
  | _ => none

/-- Single-value type assertion `x.(map[string]interface{})`. -/
def assertObj : Json → Option Obj
  | Json.obj fields => some fields
  | _ => none

/-! ## Outcomes -/

/-- The error `json.Decoder.Decode` returns. Only that decoding failed is kept: the
text of the error is not modelled. -/
inductive DecodeError where
  | failed : DecodeError
  deriving DecidableEq, Repr

/-- Value a panic carries. -/
inductive PanicValue where
  /-- An error value, `panic(err)`, with the text of `err.Error()`. -/
  | error (msg : String) : PanicValue
  /-- The error value that `Decode` returned, `panic(err)`. -/
  | decodeError (e : DecodeError) : PanicValue
  /-- Runtime panic of a failed single-value type assertion. -/
  | interfaceConversion : PanicValue
  /-- Runtime panic of a slice index out of range. -/
  | indexOutOfRange : PanicValue
  deriving DecidableEq, Repr

/-- The `require` assertions the library uses. -/
inductive Assertion where
  | Nil | NotNil | Equal | NotZero
  deriving DecidableEq, Repr

/-- How a call ends. -/
inductive Outcome (α : Type) where
  /-- The call returns. -/
  | ok (a : α) : Outcome α
  /-- The named `require` assertion failed: `t.FailNow()` stops the current test. -/
  | failNow (which : Assertion) : Outcome α
  /-- The process aborts with a panic. -/
  | panic (v : PanicValue) : Outcome α
  deriving DecidableEq

/-- An outcome is a normal return. -/
def Outcome.isOk {α : Type} : Outcome α → Bool
  | Outcome.ok _ => true
  | _ => false

/-! ## HTTP data -/

/-- Go `http.Header`: canonical header name to its values, in the order added. -/
abbrev Header := String → List String

/-- Header of a freshly made request: `make(Header)`. -/
def Header.empty : Header := fun _ => []

/-- Go `Header.Add`: append `value` to the values under the canonical form of `key`. -/
def Header.Add (canon : String → String) (h : Header) (key value : String) : Header :=
  fun k => if k = canon key then h k ++ [value] else h k

/-- Go `Header.Set`: replace the values under the canonical form of `key`. -/
def Header.Set (canon : String → String) (h : Header) (key value : String) : Header :=
  fun k => if k = canon key then [value] else h k

/-- Go `Header.Values`: the values a header map carries for `name`. -/
def Header.Values (canon : String → String) (h : Header) (name : String) : List String :=
  h (canon name)

/-- The part of `http.Request` the library fills in. -/
structure Request where
  Method : String
  URL : String
  Body : Option String
  Header : Header

/-- The part of `http.Response` the library reads. -/
structure Response where
  StatusCode : Int
  Status : String
  Body : String

/-- Everything the source takes from outside the repository. -/
structure World where
  /-- Value of the environment variable `DH`. -/
  DH : String
  /-- Go `textproto.CanonicalMIMEHeaderKey`. -/
  canon : String → String
  /-- The error of `http.NewRequest(method, url, _)`, if it fails. -/
  newRequestErr : String → String → Option String
  /-- The network: what `client.Do` answers to a request, given the requests
  dispatched before it. -/
  roundTrip : List Request → Request → Except String Response
  /-- Go `json.NewDecoder(body).Decode(&m)` for an empty `map[string]interface{}`. -/
  decode : String → Except DecodeError Obj
  /-- The stream of `uuid.NewV4().String()` results. -/
  uuid : Nat → String

/-- The mutable state: the package variable `tokens`, and what the test
process has done so far. -/
structure State where
  /-- The token cache `tokens`. -/
  tokens : String → Option String
  /-- Requests handed to the HTTP client, oldest first. -/
  log : List Request
  /-- Header lists `sendRequest` was called with, oldest first. -/
  calls : List (List String)
  /-- Number of UUIDs drawn so far. -/
  uuidCount : Nat

/-- Go map assignment `m[key] = value`. -/
def mapSet (m : String → Option String) (key value : String) : String → Option String :=
  fun k => if k = key then some value else m k

/-- A computation of the library: it reads and updates the state and ends in an outcome. -/
def M (α : Type) : Type := State → Outcome α × State

/-- Return a value, leaving the state alone. -/
def M.pure {α : Type} (a : α) : M α := fun s => (Outcome.ok a, s)

/-- Sequencing: a failed assertion or a panic ends the whole call. -/
def M.bind {α β : Type} (x : M α) (f : α → M β) : M β := fun s =>
  match x s with
  | (Outcome.ok a, s1) => f a s1
  | (Outcome.failNow which, s1) => (Outcome.failNow which, s1)
  | (Outcome.panic v, s1) => (Outcome.panic v, s1)

instance : Monad M where
  pure := M.pure
  bind := M.bind

/-! ## The transport: `getHost`, `sendRequest` -/

/-- Source `getHost`: `os.Getenv("DH")`. -/
def getHost (w : World) : String := w.DH

/-- The loop of `sendRequest` (lines 147-149), started at index `i`:
`for ; i < len(headers); i = i + 2 { req.Header.Add(headers[i], headers[i+1]) }`. -/
def addHeaders (canon : String → String) (headers : List String) (i : Nat) (h : Header) :
    Except PanicValue Header :=
  if i < headers.length then
    match headers[i]?, headers[i + 1]? with
    | some key, some value => addHeaders canon headers (i + 2) (Header.Add canon h key value)
    | _, _ => Except.error PanicValue.indexOutOfRange
  else Except.ok h
termination_by headers.length - i

/-- Source `sendRequest`. -/
def sendRequest (w : World) (requestType path : String) (body : Option String)
    (headers : List String) : M Response := fun s =>
  let s0 : State := { s with calls := s.calls ++ [headers] }
  let host := getHost w
  match w.newRequestErr requestType ("http://" ++ host ++ path) with
  | some _ => (Outcome.failNow Assertion.Nil, s0)
  | none =>
    if headers.length % 2 ≠ 0 then
      (Outcome.panic (PanicValue.error "wrong number of header arguments!"), s0)
    else
      match addHeaders w.canon headers 0 Header.empty with
      | Except.error v => (Outcome.panic v, s0)
      | Except.ok hdr =>
        let req : Request :=
          { Method := requestType, URL := "http://" ++ host ++ path, Body := body, Header := hdr }
        let s1 : State := { s0 with log := s0.log ++ [req] }
        match w.roundTrip s0.log req with
        | Except.error _ => (Outcome.failNow Assertion.Nil, s1)
        | Except.ok resp => (Outcome.ok resp, s1)

/-! ## The token cache: `getToken` -/

/-- The request Go `http.Post(url, contentType, body)` builds. -/
def postRequest (w : World) (url contentType body : String) : Request :=
  { Method := "POST", URL := url, Body := some body,
    Header := Header.Set w.canon Header.empty "Content-Type" contentType }

/-- Go `http.Post`: build the request, then dispatch it with the default client. -/
def httpPost (w : World) (url contentType body : String) (s : State) :
    Except String Response × State :=
  match w.newRequestErr "POST" url with
  | some msg => (Except.error msg, s)
  | none =>
    let req := postRequest w url contentType body
    (w.roundTrip s.log req, { s with log := s.log ++ [req] })

/-- URL of the token endpoint. -/
def tokenURL (w : World) : String :=
  "http://" ++ getHost w ++ "/authentication-service/oauth/token"

/-- The form body `getToken` posts for `user`. -/
def authString (user : String) : String :=
  "client_id=user-web-client&client_secret=user-web-client-secret&grant_type=password&username="
    ++ user ++ "&password=" ++ user

/-- Source `getToken`. -/
def getToken (w : World) (user : String) : M String := fun s =>
  match s.tokens user with
  | some val => (Outcome.ok val, s)
  | none =>
    match httpPost w (tokenURL w) "application/x-www-form-urlencoded" (authString user) s with
    | (Except.error msg, s1) => (Outcome.panic (PanicValue.error msg), s1)
    | (Except.ok result, s1) =>
      if result.StatusCode ≠ 200 then
        (Outcome.panic (PanicValue.error
          ("expected statuscode 200 from authentication-service, but got: " ++ result.Status)), s1)
      else
        match w.decode result.Body with
        | Except.error e => (Outcome.panic (PanicValue.decodeError e), s1)
        | Except.ok token =>
          match assertString (token.index "access_token") with
          | none => (Outcome.panic PanicValue.interfaceConversion, s1)
          | some tok => (Outcome.ok tok, { s1 with tokens := mapSet s1.tokens user tok })

/-! ## Request helpers -/

/-- Source `require.Equal(t, expecedCode, resp.StatusCode)`. -/
def requireEqual (expecedCode : Int) (resp : Response) : M Unit := fun s =>
  if expecedCode = resp.StatusCode then (Outcome.ok (), s)
  else (Outcome.failNow Assertion.Equal, s)

/-- Source `GetUnauthorized`. -/
def GetUnauthorized (w : World) (path : String) : M Response :=
  sendRequest w "GET" path none []

/-- Source `GetAuthorized`. -/
def GetAuthorized (w : World) (user path : String) (headers : List String) : M Response := do
  let tok ← getToken w user
  sendRequest w "GET" path none (headers ++ ["Authorization", "Bearer " ++ tok])

/-- Source `PatchAuthorized`. -/
def PatchAuthorized (w : World) (path body : String) (headers : List String) : M Response :=
  sendRequest w "PATCH" path (some body) headers

/-- Source `PostUnauthorized`. -/
def PostUnauthorized (w : World) (path body : String) (headers : List String) : M Response :=
  sendRequest w "POST" path (some body)
    (headers ++ ["Content-Type", "application/json;charset=UTF-8"])

/-- Source `PostAuthorized`. -/
def PostAuthorized (w : World) (user path body : String) (headers : List String) :
    M Response := do
  let tok ← getToken w user
  sendRequest w "POST" path (some body)
    (headers ++ ["Authorization", "Bearer " ++ tok,
      "Content-Type", "application/json;charset=UTF-8"])

/-- Source `PatchAuthorizedAndCheckStatusCode`. -/
def PatchAuthorizedAndCheckStatusCode (w : World) (user path body : String) (expecedCode : Int)
    (headers : List String) : M Unit := do
  let tok ← getToken w user
  let resp ← PatchAuthorized w path body (headers ++ ["Authorization", "Bearer " ++ tok])
  requireEqual expecedCode resp

/-- Source `PostUnauthorizedAndCheckStatusCode`. -/
def PostUnauthorizedAndCheckStatusCode (w : World) (path body : String) (expecedCode : Int)
    (headers : List String) : M Unit := do
  let resp ← PostUnauthorized w path body headers
  requireEqual expecedCode resp

/-- Source `PostAuthorizedAndCheckStatusCode`. -/
def PostAuthorizedAndCheckStatusCode (w : World) (user path body : String) (expecedCode : Int)
    (headers : List String) : M Unit := do
  let resp ← PostAuthorized w user path body headers
  requireEqual expecedCode resp

/-- Source `GetAuthorizedAndCheckStatusCode`. -/
def GetAuthorizedAndCheckStatusCode (w : World) (user path : String) (expecedCode : Int)
    (headers : List String) : M Unit := do
  let resp ← GetAuthorized w user path headers
  requireEqual expecedCode resp

/-- Source `CheckUnauthorized`. -/
def CheckUnauthorized (w : World) (path : String) : M Unit := do
  let resp ← GetUnauthorized w path
  requireEqual 401 resp

/-! ## Domain helpers -/

/-- The `range` loop of `FindLocalById` (lines 40-45): the element at which it
breaks, `none` when it runs off the end, or the panic of the type assertion. -/
def findLoop (id idField : String) : List Obj → Except PanicValue (Option Obj)
  | [] => Except.ok none
  | v :: rest =>
    match assertString (v.index idField) with
    | none => Except.error PanicValue.interfaceConversion
    | some s => if s = id then Except.ok (some v) else findLoop id idField rest

/-- Source `FindLocalById`; `require.NotNil` fails on the nil map of no match. -/
def FindLocalById (collection : List Obj) (id idField : String) : Outcome Obj :=
  match findLoop id idField collection with
  | Except.error v => Outcome.panic v
  | Except.ok none => Outcome.failNow Assertion.NotNil
  | Except.ok (some result) => Outcome.ok result

/-- The `range` loop of `FindRawLocalById` (lines 28-34). -/
def findRawLoop (id idField : String) : List Json → Except PanicValue (Option Obj)
  | [] => Except.ok none
  | v :: rest =>
    match assertObj v with
    | none => Except.error PanicValue.interfaceConversion
    | some val =>
      match assertString (val.index idField) with
      | none => Except.error PanicValue.interfaceConversion
      | some s => if s = id then Except.ok (some val) else findRawLoop id idField rest

/-- Source `FindRawLocalById`. -/
def FindRawLocalById (collection : List Json) (id idField : String) : Outcome Obj :=
  match findRawLoop id idField collection with
  | Except.error v => Outcome.panic v
  | Except.ok none => Outcome.failNow Assertion.NotNil
  | Except.ok (some result) => Outcome.ok result

/-- Go `strings.TrimRight(s, cutset)`: drop every trailing character that is in `cutset`. -/
def TrimRight (s cutset : String) : String :=
  String.mk (s.data.reverse.dropWhile (fun c => cutset.data.contains c)).reverse

/-- Source `uuid.NewV4().String()`: the next UUID of the world's stream. -/
def NewV4 (w : World) : M String := fun s =>
  (Outcome.ok (w.uuid s.uuidCount), { s with uuidCount := s.uuidCount + 1 })

/-- The string `user` that `RegisterNewUser` assembles (lines 54-64). -/
def userPayload (userId username : String) (authorities : List String) : String :=
  let user := "\x7b\n\t\t\"id\" : \"" ++ userId ++ "\",\n\t\t\"username\": \"" ++ username
    ++ "\",\n\t\t\"password\": \"" ++ username
    ++ "\",\n\t\t\"enabled\": true,\n\t\t\"authorities\": ["
  let user := authorities.foldl (fun user v => user ++ "\x7b\"authority\":\"" ++ v ++ "\",") user
  let user := TrimRight user ","
  user ++ "\x7d]\x7d"

/-- Source `RegisterNewUser`. -/
def RegisterNewUser (w : World) (authorities : List String) : M (String × String) := do
  let path := "/authentication-service/users"
  let username ← NewV4 w
  let userId ← NewV4 w
  let user := userPayload userId username authorities
  PostUnauthorizedAndCheckStatusCode w path user 204 []
  pure (userId, username)

/-! ## Callers used to state the properties -/

/-- The helpers that accept trailing header strings. -/
inductive Helper where
  | GetAuthorized
  | GetAuthorizedAndCheckStatusCode
  | PostUnauthorized
  | PostUnauthorizedAndCheckStatusCode
  | PostAuthorized
  | PostAuthorizedAndCheckStatusCode
  | PatchAuthorized
  | PatchAuthorizedAndCheckStatusCode
  deriving DecidableEq, Repr

/-- Forget what a call returns. -/
def M.discard {α : Type} (x : M α) : M Unit := do
  let _ ← x
  pure ()

/-- Call a helper by name; arguments the helper does not take are ignored. -/
def Helper.call (w : World) (h : Helper) (user path body : String) (expecedCode : Int)
    (headers : List String) : M Unit :=
  match h with
  | Helper.GetAuthorized => (Testframework.GetAuthorized w user path headers).discard
  | Helper.GetAuthorizedAndCheckStatusCode =>
    Testframework.GetAuthorizedAndCheckStatusCode w user path expecedCode headers
  | Helper.PostUnauthorized => (Testframework.PostUnauthorized w path body headers).discard
  | Helper.PostUnauthorizedAndCheckStatusCode =>
    Testframework.PostUnauthorizedAndCheckStatusCode w path body expecedCode headers
  | Helper.PostAuthorized => (Testframework.PostAuthorized w user path body headers).discard
  | Helper.PostAuthorizedAndCheckStatusCode =>
    Testframework.PostAuthorizedAndCheckStatusCode w user path body expecedCode headers
  | Helper.PatchAuthorized => (Testframework.PatchAuthorized w path body headers).discard
  | Helper.PatchAuthorizedAndCheckStatusCode =>
    Testframework.PatchAuthorizedAndCheckStatusCode w user path body expecedCode headers

/-- The helpers that take a user and fetch that user's token. -/
def Helper.takesUser : Helper → Bool
  | Helper.GetAuthorized => true
  | Helper.GetAuthorizedAndCheckStatusCode => true
  | Helper.PostAuthorized => true
  | Helper.PostAuthorizedAndCheckStatusCode => true
  | Helper.PatchAuthorizedAndCheckStatusCode => true
  | _ => false

/-- The helpers that send a POST. -/
def Helper.isPost : Helper → Bool
  | Helper.PostUnauthorized => true
  | Helper.PostUnauthorizedAndCheckStatusCode => true
  | Helper.PostAuthorized => true
  | Helper.PostAuthorizedAndCheckStatusCode => true
  | _ => false

/-- The helpers that send a PATCH. -/
def Helper.isPatch : Helper → Bool
  | Helper.PatchAuthorized => true
  | Helper.PatchAuthorizedAndCheckStatusCode => true
  | _ => false

/-- The state in which a helper reaches `sendRequest`: after `getToken(user)`
for the helpers that take a user, the starting state for the others. -/
def Helper.afterToken (w : World) (h : Helper) (user : String) (s : State) : State :=
  if h.takesUser then (getToken w user s).2 else s

/-- The values the pairs of a flat header list give for the canonical name `k`,
in list order. -/
def pairValues (canon : String → String) (k : String) : List String → List String
  | key :: value :: rest =>
    if k = canon key then value :: pairValues canon k rest else pairValues canon k rest
  | _ => []

/-! ## A reader for JSON text -/

/-- An enclosing array or object that is still open. -/
inductive Frame where
  /-- Inside an array, with the elements read so far. -/
  | arr (elems : List Json) : Frame
  /-- Inside an object, with the fields read so far and the key whose value comes next. -/
  | obj (fields : Obj) (key : String) : Frame

/-- Position inside a number literal. -/
inductive NumPos where
  | minus | zero | int | dot | frac | exp | expSign | expDigits
  deriving DecidableEq

/-- A number literal may end at this position. -/
def NumPos.final : NumPos → Bool
  | NumPos.zero => true
  | NumPos.int => true
  | NumPos.frac => true
  | NumPos.expDigits => true
  | _ => false

/-- The keywords of JSON. -/
inductive Keyword where
  | kwTrue | kwFalse | kwNull
  deriving DecidableEq

/-- The characters of a keyword. -/
def Keyword.text : Keyword → List Char
  | Keyword.kwTrue => ['t', 'r', 'u', 'e']
  | Keyword.kwFalse => ['f', 'a', 'l', 's', 'e']
  | Keyword.kwNull => ['n', 'u', 'l', 'l']

/-- The value a keyword stands for. -/
def Keyword.value : Keyword → Json
  | Keyword.kwTrue => Json.bool true
  | Keyword.kwFalse => Json.bool false
  | Keyword.kwNull => Json.null

/-- What the reader expects next. -/
inductive Scan where
  /-- A value must start. -/
  | value : Scan
  /-- Just after an opening bracket: a value or the closing bracket. -/
  | firstElem : Scan
  /-- Just after an opening brace: a key or the closing brace. -/
  | firstKey : Scan
  /-- After a comma inside an object: a key. -/
  | key : Scan
  /-- After a key: the colon. -/
  | colon (key : String) : Scan
  /-- After a value: a comma, a closer, or the end of the text. -/
  | afterValue : Scan
  /-- Inside a string; `acc` holds its characters, latest first. -/
  | str (acc : List Char) (isKey : Bool) : Scan
  /-- After a backslash inside a string. -/
  | esc (acc : List Char) (isKey : Bool) : Scan
  /-- Inside a four-digit escape, with the value of the digits read so far; `hi` is
  the high surrogate whose escape came right before this one, if any. -/
  | uni (acc : List Char) (isKey : Bool) (hi : Option Nat) (digits value : Nat) : Scan
  /-- Inside a string, right after the escape of the high surrogate `hi`; its
  replacement character heads `acc` until a low surrogate completes the pair. -/
  | strHi (acc : List Char) (isKey : Bool) (hi : Nat) : Scan
  /-- After a backslash that follows the escape of the high surrogate `hi`. -/
  | escHi (acc : List Char) (isKey : Bool) (hi : Nat) : Scan
  /-- Inside a keyword, with the number of its characters already read. -/
  | lit (kw : Keyword) (pos : Nat) : Scan
  /-- Inside a number literal. -/
  | num (acc : List Char) (pos : NumPos) : Scan

/-- State of the reader. -/
structure Reader where
  stack : List Frame
  scan : Scan
  result : Option Json

/-- JSON whitespace: space, tab, line feed, carriage return. -/
def isSpace (c : Char) : Bool :=
  c.toNat = 32 || c.toNat = 9 || c.toNat = 10 || c.toNat = 13

/-- Store a field; a repeated key keeps the later value. -/
def insertField (fields : Obj) (key : String) (v : Json) : Obj :=
  fields.filter (fun kv => kv.1 ≠ key) ++ [(key, v)]

/-- A value is complete: hand it to the enclosing array or object, or, at the top
level, keep it as the result. -/
def complete (stack : List Frame) (v : Json) : Reader :=
  match stack with
  | [] => { stack := [], scan := Scan.afterValue, result := some v }
  | Frame.arr elems :: rest =>
    { stack := Frame.arr (elems ++ [v]) :: rest, scan := Scan.afterValue, result := none }
  | Frame.obj fields key :: rest =>
    { stack := Frame.obj (insertField fields key v) "" :: rest, scan := Scan.afterValue,
      result := none }

/-- Reading `c` after a complete value. -/
def stepAfterValue (stack : List Frame) (result : Option Json) (c : Char) : Option Reader :=
  if isSpace c then some { stack := stack, scan := Scan.afterValue, result := result }
  else
    match stack with
    | [] => none
    | Frame.arr elems :: rest =>
      if c.toNat = 44 then some { stack := stack, scan := Scan.value, result := none }
      else if c.toNat = 93 then some (complete rest (Json.arr elems))
      else none
    | Frame.obj fields _ :: rest =>
      if c.toNat = 44 then some { stack := stack, scan := Scan.key, result := none }
      else if c.toNat = 125 then some (complete rest (Json.obj fields))
      else none

/-- Reading `c` where a value must start. -/
def stepValue (stack : List Frame) (c : Char) : Option Reader :=
  if c.toNat = 123 then
    some { stack := Frame.obj [] "" :: stack, scan := Scan.firstKey, result := none }
  else if c.toNat = 91 then
    some { stack := Frame.arr [] :: stack, scan := Scan.firstElem, result := none }
  else if c.toNat = 34 then some { stack := stack, scan := Scan.str [] false, result := none }
  else if c = 't' then some { stack := stack, scan := Scan.lit Keyword.kwTrue 1, result := none }
  else if c = 'f' then some { stack := stack, scan := Scan.lit Keyword.kwFalse 1, result := none }
  else if c = 'n' then some { stack := stack, scan := Scan.lit Keyword.kwNull 1, result := none }
  else if c = '-' then some { stack := stack, scan := Scan.num [c] NumPos.minus, result := none }
  else if c = '0' then some { stack := stack, scan := Scan.num [c] NumPos.zero, result := none }
  else if c.isDigit then some { stack := stack, scan := Scan.num [c] NumPos.int, result := none }
  else none

/-- The position after reading `c` inside a number literal, if `c` continues it. -/
def numNext (pos : NumPos) (c : Char) : Option NumPos :=
  match pos with
  | NumPos.minus =>
    if c = '0' then some NumPos.zero else if c.isDigit then some NumPos.int else none
  | NumPos.zero =>
    if c = '.' then some NumPos.dot else if c = 'e' || c = 'E' then some NumPos.exp else none
  | NumPos.int =>
    if c.isDigit then some NumPos.int else if c = '.' then some NumPos.dot
    else if c = 'e' || c = 'E' then some NumPos.exp else none
  | NumPos.dot => if c.isDigit then some NumPos.frac else none
  | NumPos.frac =>
    if c.isDigit then some NumPos.frac else if c = 'e' || c = 'E' then some NumPos.exp else none
  | NumPos.exp =>
    if c = '+' || c = '-' then some NumPos.expSign
    else if c.isDigit then some NumPos.expDigits else none
  | NumPos.expSign => if c.isDigit then some NumPos.expDigits else none
  | NumPos.expDigits => if c.isDigit then some NumPos.expDigits else none

/-- Value of a hexadecimal digit. -/
def hexValue (c : Char) : Option Nat :=
  if c.isDigit then some (c.toNat - 48)
  else if 97 ≤ c.toNat ∧ c.toNat ≤ 102 then some (c.toNat - 87)
  else if 65 ≤ c.toNat ∧ c.toNat ≤ 70 then some (c.toNat - 55)
  else none

/-- The end of a string: a key waits for its colon, any other string is a value. -/
def endString (stack : List Frame) (acc : List Char) (isKey : Bool) : Reader :=
  if isKey then
    { stack := stack, scan := Scan.colon (String.mk acc.reverse), result := none }
  else complete stack (Json.str (String.mk acc.reverse))

/-- The character an escape letter stands for. -/
def escapeChar (c : Char) : Option Char :=
  if c.toNat = 34 || c.toNat = 92 || c.toNat = 47 then some c
  else if c = 'b' then some (Char.ofNat 8)
  else if c = 'f' then some (Char.ofNat 12)
  else if c = 'n' then some (Char.ofNat 10)
  else if c = 'r' then some (Char.ofNat 13)
  else if c = 't' then some (Char.ofNat 9)
  else none

/-- The end of a four-digit escape with value `code`. A low surrogate right after
the escape of a high surrogate makes one character with it; any other surrogate
stands for the replacement character U+FFFD. -/
def endEscape (acc : List Char) (isKey : Bool) (hi : Option Nat) (code : Nat) : Scan :=
  if 0xD800 ≤ code ∧ code < 0xDC00 then Scan.strHi (Char.ofNat 0xFFFD :: acc) isKey code
  else if 0xDC00 ≤ code ∧ code < 0xE000 then
    match hi with
    | some h =>
      Scan.str (Char.ofNat (0x10000 + (h - 0xD800) * 0x400 + (code - 0xDC00)) :: acc.tail) isKey
    | none => Scan.str (Char.ofNat 0xFFFD :: acc) isKey
  else Scan.str (Char.ofNat code :: acc) isKey

/-- One step of the reader: read the character `c`; `none` rejects the text. -/
def Reader.step (r : Reader) (c : Char) : Option Reader :=
  match r.scan with
  | Scan.value => if isSpace c then some r else stepValue r.stack c
  | Scan.firstElem =>
    if isSpace c then some r
    else if c.toNat = 93 then
      match r.stack with
      | Frame.arr elems :: rest => some (complete rest (Json.arr elems))
      | _ => none
    else stepValue r.stack c
  | Scan.firstKey =>
    if isSpace c then some r
    else if c.toNat = 125 then
      match r.stack with
      | Frame.obj fields _ :: rest => some (complete rest (Json.obj fields))
      | _ => none
    else if c.toNat = 34 then some { r with scan := Scan.str [] true }
    else none
  | Scan.key =>
    if isSpace c then some r
    else if c.toNat = 34 then some { r with scan := Scan.str [] true }
    else none
  | Scan.colon key =>
    if isSpace c then some r
    else if c.toNat = 58 then
      match r.stack with
      | Frame.obj fields _ :: rest =>
        some { r with stack := Frame.obj fields key :: rest, scan := Scan.value }
      | _ => none
    else none
  | Scan.afterValue => stepAfterValue r.stack r.result c
  | Scan.str acc isKey =>
    if c.toNat = 34 then some (endString r.stack acc isKey)
    else if c.toNat = 92 then some { r with scan := Scan.esc acc isKey }
    else if c.toNat < 32 then none
    else some { r with scan := Scan.str (c :: acc) isKey }
  | Scan.strHi acc isKey hi =>
    if c.toNat = 34 then some (endString r.stack acc isKey)
    else if c.toNat = 92 then some { r with scan := Scan.escHi acc isKey hi }
    else if c.toNat < 32 then none
    else some { r with scan := Scan.str (c :: acc) isKey }
  | Scan.esc acc isKey =>
    if c = 'u' then some { r with scan := Scan.uni acc isKey none 0 0 }
    else
      match escapeChar c with
      | some e => some { r with scan := Scan.str (e :: acc) isKey }
      | none => none
  | Scan.escHi acc isKey hi =>
    if c = 'u' then some { r with scan := Scan.uni acc isKey (some hi) 0 0 }
    else
      match escapeChar c with
      | some e => some { r with scan := Scan.str (e :: acc) isKey }
      | none => none
  | Scan.uni acc isKey hi digits value =>
    match hexValue c with
    | none => none
    | some d =>
      if digits = 3 then some { r with scan := endEscape acc isKey hi (16 * value + d) }
      else some { r with scan := Scan.uni acc isKey hi (digits + 1) (16 * value + d) }
  | Scan.lit kw pos =>
    match kw.text[pos]? with
    | none => none
    | some e =>
      if c = e then
        if pos + 1 = kw.text.length then some (complete r.stack kw.value)
        else some { r with scan := Scan.lit kw (pos + 1) }
      else none
  | Scan.num acc pos =>
    match numNext pos c with
    | some next => some { r with scan := Scan.num (c :: acc) next }
    | none =>
      if pos.final then
        let r1 := complete r.stack (Json.num (String.mk acc.reverse))
        stepAfterValue r1.stack r1.result c
      else none

/-- Read a whole text, character by character. -/
def readAll : List Char → Reader → Option Reader
  | [], r => some r
  | c :: cs, r =>
    match r.step c with
    | none => none
    | some r1 => readAll cs r1

/-- The value of the reader at the end of the text, if the text is complete. -/
def Reader.finish (r : Reader) : Option Json :=
  match r.stack, r.scan with
  | [], Scan.afterValue => r.result
  | [], Scan.num acc pos => if pos.final then some (Json.num (String.mk acc.reverse)) else none
  | _, _ => none

/-- Parse a JSON text (RFC 8259: one value between optional whitespace);
`none` when the text is not well-formed. -/
def parseJson (text : String) : Option Json :=
  match readAll text.data { stack := [], scan := Scan.value, result := none } with
  | none => none
  | some r => r.finish

/-- The text is well-formed JSON. -/
def wellFormedJson (text : String) : Bool :=
  (parseJson text).isSome


/-- A character that stands for itself inside a JSON string: not a quote, not a
backslash, not a control character. -/
def plainChar (c : Char) : Bool :=
  decide (c.toNat ≠ 34) && decide (c.toNat ≠ 92) && decide (32 ≤ c.toNat)

/-- A string of plain characters. -/
def plain (s : String) : Bool := s.data.all plainChar

/-- Value of a run of decimal digits. -/
def digitsValue (cs : List Char) : Nat :=
  cs.foldl (fun n c => 10 * n + (c.toNat - 48)) 0

/-- The number literal is out of the range of a `float64`: its value, rounded to the
nearest `float64`, is infinite, and Go `strconv.ParseFloat` returns a range error. -/
def overflowsFloat64 (literal : List Char) : Bool :=
  let unsigned := literal.dropWhile (fun c => c = '-')
  let intPart := unsigned.takeWhile Char.isDigit
  let afterInt := unsigned.dropWhile Char.isDigit
  let fracPart :=
    match afterInt with
    | '.' :: rest => rest.takeWhile Char.isDigit
    | _ => []
  let afterFrac :=
    match afterInt with
    | '.' :: rest => rest.dropWhile Char.isDigit
    | _ => afterInt
  let exponent : Int :=
    match afterFrac with
    | _ :: '-' :: ds => - (digitsValue ds : Int)
    | _ :: '+' :: ds => (digitsValue ds : Int)
    | _ :: ds => (digitsValue ds : Int)
    | [] => 0
  let mantissa := digitsValue (intPart ++ fracPart)
  let scale : Int := exponent - (fracPart.length : Int)
  let limit : Nat := 2 ^ 1024 - 2 ^ 970
  if 0 ≤ scale then decide (limit ≤ mantissa * 10 ^ scale.toNat)
  else decide (limit * 10 ^ (-scale).toNat ≤ mantissa)

/-- The number literal that ends just before the character `c`, if the reader is
inside one. -/
def endedNumber (r : Reader) (c : Char) : Option (List Char) :=
  match r.scan with
  | Scan.num acc pos => if (numNext pos c).isNone then some acc.reverse else none
  | _ => none

/-- Read the first JSON value of a stream the way Go `Decoder.Decode` does: reading
stops where the first value is complete, so what follows it is not looked at. The
flag tells whether a number out of `float64` range was met; nesting deeper than
10000 is refused (Go 1.15 and later). -/
def readFirst : List Char → Reader → Bool → Option (Json × Bool)
  | [], r, overflow =>
    match r.stack, r.scan with
    | [], Scan.num acc pos =>
      if pos.final then
        some (Json.num (String.mk acc.reverse), overflow || overflowsFloat64 acc.reverse)
      else none
    | _, _ => none
  | c :: cs, r, overflow =>
    let overflow1 :=
      match endedNumber r c with
      | some literal => overflow || overflowsFloat64 literal
      | none => overflow
    match r.stack, endedNumber r c with
    | [], some _ =>
      match r.finish with
      | some v => some (v, overflow1)
      | none => none
    | _, _ =>
      match r.step c with
      | none => none
      | some r1 =>
        if 10000 < r1.stack.length then none
        else
          match r1.stack, r1.result with
          | [], some v => some (v, overflow1)
          | _, _ => readFirst cs r1 overflow1

/-- Go `json.NewDecoder(body).Decode(&m)` for an empty `map[string]interface{}`: the
first JSON value of the body is decoded and the rest of the body is ignored. An
object gives its fields; `null` sets the map to nil, which reads as an empty map;
any other value, a body without a complete first value, and a number out of
`float64` range make `Decode` return an error. -/
def decodeObject (body : String) : Except DecodeError Obj :=
  match readFirst body.data { stack := [], scan := Scan.value, result := none } false with
  | some (Json.obj fields, false) => Except.ok fields
  | some (Json.null, false) => Except.ok []
  | _ => Except.error DecodeError.failed

/-! ## A model of header-name canonicalisation, and concrete worlds -/

/-- Go `validHeaderFieldByte`: the characters of an HTTP token. -/
def validHeaderFieldByte (c : Char) : Bool :=
  c.isAlphanum || "!#$%&'*+-.^_`|~".data.contains c

/-- Upper-case the first letter and every letter after a hyphen, lower-case the rest. -/
def canonChars : Bool → List Char → List Char
  | _, [] => []
  | upper, c :: cs =>
    let d := if upper then c.toUpper else c.toLower
    d :: canonChars (d = '-') cs

/-- Go `textproto.CanonicalMIMEHeaderKey`: a name that is not an HTTP token is
left alone, any other is put in canonical case. -/
def CanonicalMIMEHeaderKey (s : String) : String :=
  if s.data.all validHeaderFieldByte then String.mk (canonChars true s.data) else s

/-- A state with an empty token cache in which nothing has happened yet. -/
def State.initial : State :=
  { tokens := fun _ => none, log := [], calls := [], uuidCount := 0 }

/-- A mock deployment at `127.0.0.1:9`: the token endpoint answers 200 with the
token `T1`, every other request gets 204. -/
def mockWorld : World :=
  { DH := "127.0.0.1:9",
    canon := CanonicalMIMEHeaderKey,
    newRequestErr := fun _ _ => none,
    roundTrip := fun _ req =>
      if req.URL = "http://127.0.0.1:9/authentication-service/oauth/token" then
        Except.ok { StatusCode := 200, Status := "200 OK",
                    Body := "\x7b\"access_token\":\"T1\"\x7d" }
      else Except.ok { StatusCode := 204, Status := "204 No Content", Body := "" },
    decode := decodeObject,
    uuid := fun n =>
      if n = 0 then "6ba7b810-9dad-41d1-80b4-00c04fd430c8"
      else "7c9e6679-7425-40de-944b-e07fc1f90ae7" }

/-- The mock deployment with a token endpoint that answers 500. -/
def brokenAuthWorld : World :=
  { mockWorld with
    roundTrip := fun _ _ =>
      Except.ok { StatusCode := 500, Status := "500 Internal Server Error", Body := "" } }

/-- The mock deployment with a token endpoint that answers 200 with the token object
followed by more text. -/
def trailingDataWorld : World :=
  { mockWorld with
    roundTrip := fun _ _ =>
      Except.ok { StatusCode := 200, Status := "200 OK",
                  Body := "\x7b\"access_token\":\"T1\"\x7d trailing" } }

/-- The mock deployment, where `http.NewRequest` rejects the URL of the path `/%zz`. -/
def badURLWorld : World :=
  { mockWorld with
    newRequestErr := fun _ url =>
      if url = "http://127.0.0.1:9/%zz" then some "invalid URL escape \"%zz\"" else none }

/-- The starting state with the token `T1` already cached for `alice`. -/
def State.withAlice : State :=
  { State.initial with tokens := mapSet State.initial.tokens "alice" "T1" }

/-- The token request `getToken` posts for `user`. -/
def tokenRequest (w : World) (user : String) : Request :=
  postRequest w (tokenURL w) "application/x-www-form-urlencoded" (authString user)

/-- The request `sendRequest` builds from an even-length header list. -/
def builtRequest (w : World) (requestType path : String) (body : Option String)
    (headers : List String) : Request :=
  { Method := requestType, URL := "http://" ++ getHost w ++ path, Body := body,
    Header := fun k => pairValues w.canon k headers }

/-- The HTTP method a helper passes to `sendRequest`. -/
def Helper.method : Helper → String
  | Helper.GetAuthorized => "GET"
  | Helper.GetAuthorizedAndCheckStatusCode => "GET"
  | Helper.PatchAuthorized => "PATCH"
  | Helper.PatchAuthorizedAndCheckStatusCode => "PATCH"
  | _ => "POST"

/-- The body a helper passes to `sendRequest`: `nil` for GET, else
`strings.NewReader(body)`. -/
def Helper.bodyArg (h : Helper) (body : String) : Option String :=
  match h with
  | Helper.GetAuthorized => none
  | Helper.GetAuthorizedAndCheckStatusCode => none
  | _ => some body

/-- The helper ends with `require.Equal(t, expecedCode, resp.StatusCode)`. -/
def Helper.checksStatus : Helper → Bool
  | Helper.GetAuthorizedAndCheckStatusCode => true
  | Helper.PostUnauthorizedAndCheckStatusCode => true
  | Helper.PostAuthorizedAndCheckStatusCode => true
  | Helper.PatchAuthorizedAndCheckStatusCode => true
  | _ => false

/-- The strings a helper appends to the caller's headers (lines 70, 99, 104, 136),
directly or through the helper it delegates to. -/
def Helper.appended (h : Helper) (tok : String) : List String :=
  match h with
  | Helper.GetAuthorized => ["Authorization", "Bearer " ++ tok]
  | Helper.GetAuthorizedAndCheckStatusCode => ["Authorization", "Bearer " ++ tok]
  | Helper.PatchAuthorizedAndCheckStatusCode => ["Authorization", "Bearer " ++ tok]
  | Helper.PostUnauthorized => ["Content-Type", "application/json;charset=UTF-8"]
  | Helper.PostUnauthorizedAndCheckStatusCode =>
    ["Content-Type", "application/json;charset=UTF-8"]
  | Helper.PostAuthorized =>
    ["Authorization", "Bearer " ++ tok, "Content-Type", "application/json;charset=UTF-8"]
  | Helper.PostAuthorizedAndCheckStatusCode =>
    ["Authorization", "Bearer " ++ tok, "Content-Type", "application/json;charset=UTF-8"]
  | Helper.PatchAuthorized => []

/-- The part of a helper from its call of `sendRequest` on, given the header list
it hands over. -/
def Helper.send (w : World) (h : Helper) (path body : String) (expecedCode : Int)
    (headers : List String) : M Unit := fun s =>
  match sendRequest w h.method path (h.bodyArg body) headers s with
  | (Outcome.ok resp, s1) =>
    if h.checksStatus then requireEqual expecedCode resp s1 else (Outcome.ok (), s1)
  | (Outcome.failNow which, s1) => (Outcome.failNow which, s1)
  | (Outcome.panic v, s1) => (Outcome.panic v, s1)

/-- The requests a helper hands to the HTTP client after it has fetched the token:
what its call added to the log beyond the token traffic. -/
def Helper.sent (w : World) (h : Helper) (user path body : String) (expecedCode : Int)
    (headers : List String) (s : State) : List Request :=
  (h.call w user path body expecedCode headers s).2.log.drop (h.afterToken w user s).log.length

/-! # Properties -/

/-! ## The header loop -/

theorem pairValues_cons_cons (canon : String → String) (k key value : String)
    (rest : List String) :
    pairValues canon k (key :: value :: rest)
      = if k = canon key then value :: pairValues canon k rest else pairValues canon k rest := by
  simp [pairValues]

/-- Values of a concatenation whose first part is made of whole pairs. -/
theorem pairValues_append (canon : String → String) (k : String) (b : List String) :
    ∀ a : List String, a.length % 2 = 0 →
      pairValues canon k (a ++ b) = pairValues canon k a ++ pairValues canon k b
  | [], _ => by simp [pairValues]
  | [_], h => by simp at h
  | key :: value :: rest, h => by
    have hrest : rest.length % 2 = 0 := by
      simp only [List.length_cons] at h
      omega
    have ih := pairValues_append canon k b rest hrest
    simp only [List.cons_append, pairValues_cons_cons, ih]
    split <;> simp

/-- The values of the pairs, read off by index: the strings at odd positions
`2i+1` whose name at position `2i` has canonical form `k`, in increasing `i`. -/
theorem pairValues_eq_index (canon : String → String) (k : String) :
    ∀ l : List String,
      pairValues canon k l
        = ((List.range (l.length / 2)).filter
            (fun i => decide (canon (l.getD (2 * i) "") = k))).map
            (fun i => l.getD (2 * i + 1) "")
  | [] => by simp [pairValues]
  | [_] => by simp [pairValues]
  | key :: value :: rest => by
    have ih := pairValues_eq_index canon k rest
    have hlen : (key :: value :: rest).length / 2 = rest.length / 2 + 1 := by
      simp only [List.length_cons]
      omega
    rw [hlen, List.range_succ_eq_map, pairValues_cons_cons, ih]
    simp only [List.filter_cons, List.filter_map, List.map_map]
    have h1 : ∀ i : Nat, (key :: value :: rest)[2 * (i + 1)]? = rest[2 * i]? := by
      intro i
      have : 2 * (i + 1) = 2 * i + 1 + 1 := by ring
      rw [this]
      simp
    have h2 : ∀ i : Nat, (value :: rest)[2 * (i + 1)]? = rest[2 * i + 1]? := by
      intro i
      have : 2 * (i + 1) = 2 * i + 1 + 1 := by ring
      rw [this]
      simp
    by_cases hk : k = canon key
    · have hk2 : canon key = k := hk.symm
      simp [hk2, List.map_map, Function.comp_def, h1, h2]
    · have hk2 : ¬ canon key = k := fun h => hk h.symm
      simp [hk, hk2, List.map_map, Function.comp_def, h1, h2]

/-- The loop of `sendRequest`, on a list with `m` whole pairs left from index `i`: it
ends normally, having appended every remaining pair's value under its canonical name. -/
theorem addHeaders_eq (canon : String → String) (headers : List String) :
    ∀ (m i : Nat) (h : Header), headers.length = i + 2 * m →
      addHeaders canon headers i h
        = Except.ok (fun k => h k ++ pairValues canon k (headers.drop i)) := by
  intro m
  induction m with
  | zero =>
    intro i h hlen
    rw [addHeaders]
    have hdrop : headers.drop i = [] := List.drop_eq_nil_of_le (by omega)
    have hlt : ¬ i < headers.length := by omega
    simp [hlt, hdrop, pairValues]
  | succ m ih =>
    intro i h hlen
    have hi : i < headers.length := by omega
    have hi1 : i + 1 < headers.length := by omega
    rw [addHeaders]
    have hd : headers.drop i = headers[i] :: headers[i + 1] :: headers.drop (i + 2) := by
      rw [List.drop_eq_getElem_cons hi, List.drop_eq_getElem_cons hi1]
    simp only [hi, if_true, List.getElem?_eq_getElem hi, List.getElem?_eq_getElem hi1]
    rw [ih (i + 2) _ (by omega), hd, ]
    congr 1
    funext k
    simp only [pairValues_cons_cons, Header.Add]
    split <;> simp

theorem addHeaders_even (canon : String → String) (headers : List String)
    (heven : headers.length % 2 = 0) :
    addHeaders canon headers 0 Header.empty
      = Except.ok (fun k => pairValues canon k headers) := by
  rw [addHeaders_eq canon headers (headers.length / 2) 0 Header.empty (by omega)]
  simp [Header.empty]

/-- What `sendRequest` does with an even-length header list once the request
can be constructed: it dispatches `builtRequest` and returns the answer, or
fails the test when the network fails. -/
theorem sendRequest_even (w : World) (requestType path : String) (body : Option String)
    (headers : List String) (s : State)
    (hnew : w.newRequestErr requestType ("http://" ++ getHost w ++ path) = none)
    (heven : headers.length % 2 = 0) :
    sendRequest w requestType path body headers s
      = (match w.roundTrip s.log (builtRequest w requestType path body headers) with
          | Except.error _ => Outcome.failNow Assertion.Nil
          | Except.ok resp => Outcome.ok resp,
         { s with calls := s.calls ++ [headers],
                  log := s.log ++ [builtRequest w requestType path body headers] }) := by
  unfold sendRequest
  simp only [hnew, heven, addHeaders_even w.canon headers heven, builtRequest]
  simp only [ne_eq, not_true_eq_false, if_false]
  split <;> rfl

/-- What `sendRequest` does with an odd-length header list: nothing is dispatched. -/
theorem sendRequest_odd (w : World) (requestType path : String) (body : Option String)
    (headers : List String) (s : State) (hodd : headers.length % 2 = 1) :
    sendRequest w requestType path body headers s
      = (match w.newRequestErr requestType ("http://" ++ getHost w ++ path) with
          | some _ => Outcome.failNow Assertion.Nil
          | none => Outcome.panic (PanicValue.error "wrong number of header arguments!"),
         { s with calls := s.calls ++ [headers] }) := by
  unfold sendRequest
  cases hnew : w.newRequestErr requestType ("http://" ++ getHost w ++ path) with
  | some e => simp [hnew]
  | none => simp [hnew, hodd]

/-- C10. For every even-length header list `h` and every header name `n`, the
loop of `sendRequest` ends normally (it never indexes past the end of `h`), and
the header it builds carries for `n` exactly the strings `h[2i+1]` for those `i`
with `h[2i]` canonically equal to `n`, in increasing order of `i`; when the
request can be constructed, exactly that request is handed to the client and
the call does not panic. -/
theorem sendRequest_header_values (w : World) (requestType path : String)
    (body : Option String) (h : List String) (n : String) (s : State)
    (heven : h.length % 2 = 0) :
    ∃ hdr : Header,
      addHeaders w.canon h 0 Header.empty = Except.ok hdr ∧
      Header.Values w.canon hdr n
        = ((List.range (h.length / 2)).filter
            (fun i => decide (w.canon (h.getD (2 * i) "") = w.canon n))).map
            (fun i => h.getD (2 * i + 1) "") ∧
      (w.newRequestErr requestType ("http://" ++ getHost w ++ path) = none →
        (sendRequest w requestType path body h s).2.log
            = s.log ++ [{ Method := requestType, URL := "http://" ++ getHost w ++ path,
                          Body := body, Header := hdr }] ∧
          ∀ v, (sendRequest w requestType path body h s).1 ≠ Outcome.panic v) := by
  refine ⟨fun k => pairValues w.canon k h, addHeaders_even w.canon h heven, ?_, ?_⟩
  · simp only [Header.Values]
    exact pairValues_eq_index w.canon (w.canon n) h
  · intro hnew
    rw [sendRequest_even w requestType path body h s hnew heven]
    refine ⟨rfl, ?_⟩
    intro v
    cases w.roundTrip s.log (builtRequest w requestType path body h) <;> simp


/-! ## The token cache -/

theorem bind_apply {α β : Type} (x : M α) (f : α → M β) (s : State) :
    (x >>= f) s = M.bind x f s := rfl

theorem pure_apply {α : Type} (a : α) (s : State) :
    (pure a : M α) s = (Outcome.ok a, s) := rfl

theorem bind_of_ok {α β : Type} (x : M α) (f : α → M β) (s s1 : State) (a : α)
    (h : x s = (Outcome.ok a, s1)) : (x >>= f) s = f a s1 := by
  simp only [bind_apply, M.bind, h]

theorem bind_of_failNow {α β : Type} (x : M α) (f : α → M β) (s s1 : State) (which : Assertion)
    (h : x s = (Outcome.failNow which, s1)) : (x >>= f) s = (Outcome.failNow which, s1) := by
  simp only [bind_apply, M.bind, h]

theorem bind_of_panic {α β : Type} (x : M α) (f : α → M β) (s s1 : State) (v : PanicValue)
    (h : x s = (Outcome.panic v, s1)) : (x >>= f) s = (Outcome.panic v, s1) := by
  simp only [bind_apply, M.bind, h]

/-- Go `http.Post` touches neither the token cache nor the record of `sendRequest` calls. -/
theorem httpPost_frame (w : World) (url contentType body : String) (s : State) :
    (httpPost w url contentType body s).2.calls = s.calls ∧
    (httpPost w url contentType body s).2.tokens = s.tokens := by
  unfold httpPost
  split <;> simp

/-- Whatever `getToken` does, it never calls `sendRequest`. -/
theorem getToken_calls (w : World) (user : String) (s : State) :
    (getToken w user s).2.calls = s.calls := by
  unfold getToken
  cases hs : s.tokens user with
  | some val => simp
  | none =>
    have hf := (httpPost_frame w (tokenURL w) "application/x-www-form-urlencoded"
      (authString user) s).1
    generalize httpPost w (tokenURL w) "application/x-www-form-urlencoded" (authString user) s
      = p at hf
    obtain ⟨r, s1⟩ := p
    cases r with
    | error msg => simpa using hf
    | ok result =>
      by_cases h200 : result.StatusCode = 200
      · simp only [h200, ne_eq, not_true_eq_false, if_false]
        cases w.decode result.Body with
        | error msg => simpa using hf
        | ok token =>
          cases ha : assertString (token.index "access_token") with
          | none => simpa [ha] using hf
          | some tok => simpa [ha] using hf
      · simpa [h200] using hf

/-- A token that `getToken` returns is the one the cache holds afterwards. -/
theorem getToken_ok_cached (w : World) (user tok : String) (s s1 : State)
    (h : getToken w user s = (Outcome.ok tok, s1)) : s1.tokens user = some tok := by
  unfold getToken at h
  cases hs : s.tokens user with
  | some val =>
    simp only [hs, Prod.mk.injEq, Outcome.ok.injEq] at h
    rw [← h.2, ← h.1, hs]
  | none =>
    simp only [hs] at h
    generalize httpPost w (tokenURL w) "application/x-www-form-urlencoded" (authString user) s
      = p at h
    obtain ⟨r, s2⟩ := p
    cases r with
    | error msg => simp at h
    | ok result =>
      by_cases h200 : result.StatusCode = 200
      · simp only [h200, ne_eq, not_true_eq_false, if_false] at h
        cases hd : w.decode result.Body with
        | error msg => simp [hd] at h
        | ok token =>
          cases ha : assertString (token.index "access_token") with
          | none => simp [hd, ha] at h
          | some t =>
            simp only [hd, ha, Prod.mk.injEq, Outcome.ok.injEq] at h
            rw [← h.2, ← h.1]
            simp [mapSet]
      · simp [h200] at h

/-- C9 (amended). On a cache miss `getToken(user)` panics when the token request
cannot be made or fails on the network, when the status is not 200 (the panic message
then ends with the received status), when `Decode` returns an error for the body, and
when the decoded object has no string under `access_token`; in each of these cases
the token cache is exactly what it was before the call. -/
theorem getToken_failure_panics (w : World) (s : State) (user : String)
    (hmiss : s.tokens user = none) :
    (∀ msg, w.newRequestErr "POST" (tokenURL w) = some msg →
      (getToken w user s).1 = Outcome.panic (PanicValue.error msg) ∧
      (getToken w user s).2.tokens = s.tokens) ∧
    (w.newRequestErr "POST" (tokenURL w) = none →
      (∀ msg, w.roundTrip s.log (tokenRequest w user) = Except.error msg →
        (getToken w user s).1 = Outcome.panic (PanicValue.error msg) ∧
        (getToken w user s).2.tokens = s.tokens) ∧
      (∀ resp, w.roundTrip s.log (tokenRequest w user) = Except.ok resp →
        (resp.StatusCode ≠ 200 →
          (getToken w user s).1 = Outcome.panic (PanicValue.error
            ("expected statuscode 200 from authentication-service, but got: " ++ resp.Status)) ∧
          (getToken w user s).2.tokens = s.tokens) ∧
        (resp.StatusCode = 200 →
          (∀ e, w.decode resp.Body = Except.error e →
            (getToken w user s).1 = Outcome.panic (PanicValue.decodeError e) ∧
            (getToken w user s).2.tokens = s.tokens) ∧
          (∀ token, w.decode resp.Body = Except.ok token →
            (∀ T, token.index "access_token" ≠ some (Json.str T)) →
            (getToken w user s).1 = Outcome.panic PanicValue.interfaceConversion ∧
            (getToken w user s).2.tokens = s.tokens)))) := by
  refine ⟨?_, ?_⟩
  · intro msg hnew
    simp [getToken, hmiss, httpPost, hnew]
  · intro hnew
    refine ⟨?_, ?_⟩
    · intro msg hresp
      unfold tokenRequest at hresp
      simp [getToken, hmiss, httpPost, hnew, hresp]
    · intro resp hresp
      unfold tokenRequest at hresp
      refine ⟨?_, ?_⟩
      · intro h200
        simp [getToken, hmiss, httpPost, hnew, hresp, h200]
      · intro h200
        refine ⟨?_, ?_⟩
        · intro e hjson
          simp [getToken, hmiss, httpPost, hnew, hresp, h200, hjson]
        · intro token hjson hfield
          have hassert : assertString (token.index "access_token") = none := by
            cases hidx : token.index "access_token" with
            | none => rfl
            | some v =>
              cases v with
              | str T => exact absurd hidx (hfield T)
              | _ => rfl
          simp [getToken, hmiss, httpPost, hnew, hresp, h200, hjson, hassert]

/-- C9 as stated fails: the body `{"access_token":"T1"} trailing` is not valid JSON,
but `Decode` reads only its first value, so `getToken` does not panic: it returns
`T1` and stores it in the cache. -/
theorem getToken_accepts_data_after_first_value :
    wellFormedJson "\x7b\"access_token\":\"T1\"\x7d trailing" = false ∧
    State.initial.tokens "alice" = none ∧
    (getToken trailingDataWorld "alice" State.initial).1 = Outcome.ok "T1" ∧
    (getToken trailingDataWorld "alice" State.initial).2.tokens "alice" = some "T1" := by
  decide

/-! ## The request helpers -/

theorem requireEqual_state (expecedCode : Int) (resp : Response) (s : State) :
    (requireEqual expecedCode resp s).2 = s := by
  unfold requireEqual
  split <;> rfl

/-- Every helper is: fetch the token (if it takes a user), then `Helper.send` with the
caller's headers followed by the strings the helper appends. -/
theorem Helper.call_eq (w : World) (h : Helper) (user path body : String) (expecedCode : Int)
    (headers : List String) (s : State) :
    h.call w user path body expecedCode headers s
      = if h.takesUser then
          match getToken w user s with
          | (Outcome.ok tok, s1) =>
            h.send w path body expecedCode (headers ++ h.appended tok) s1
          | (Outcome.failNow which, s1) => (Outcome.failNow which, s1)
          | (Outcome.panic v, s1) => (Outcome.panic v, s1)
        else h.send w path body expecedCode (headers ++ h.appended "") s := by
  cases h <;>
    simp only [Helper.call, Helper.takesUser, Helper.send, Helper.appended, Helper.method,
      Helper.bodyArg, Helper.checksStatus, M.discard, Testframework.GetAuthorized,
      Testframework.GetAuthorizedAndCheckStatusCode, Testframework.PostUnauthorized,
      Testframework.PostUnauthorizedAndCheckStatusCode, Testframework.PostAuthorized,
      Testframework.PostAuthorizedAndCheckStatusCode, Testframework.PatchAuthorized,
      Testframework.PatchAuthorizedAndCheckStatusCode, bind_apply, pure_apply, M.bind, M.pure,
      if_true, List.append_nil, Bool.false_eq_true, if_false] <;>
    (try rcases getToken w user s with ⟨_ | _ | _, _⟩) <;>
    (try simp only []) <;>
    (try rcases sendRequest w _ path _ _ _ with ⟨_ | _ | _, _⟩) <;>
    (try simp only [])

/-- The strings a helper appends come in pairs. -/
theorem Helper.appended_length (h : Helper) (tok : String) :
    (h.appended tok).length % 2 = 0 := by
  cases h <;> simp [Helper.appended]

theorem Helper.appended_of_not_takesUser (h : Helper) (tok : String)
    (hno : h.takesUser = false) : h.appended tok = h.appended "" := by
  cases h <;> simp_all [Helper.appended, Helper.takesUser]

/-- A helper whose token is available goes on to `Helper.send`. -/
theorem Helper.call_of_token (w : World) (h : Helper) (user path body : String)
    (expecedCode : Int) (headers : List String) (s : State) (tok : String)
    (htok : h.takesUser = true → (getToken w user s).1 = Outcome.ok tok) :
    h.call w user path body expecedCode headers s
      = h.send w path body expecedCode (headers ++ h.appended tok) (h.afterToken w user s) := by
  rw [Helper.call_eq]
  cases htakes : h.takesUser with
  | true =>
    have h1 := htok htakes
    rcases hg : getToken w user s with ⟨o, s1⟩
    rw [hg] at h1
    simp only at h1
    subst h1
    simp [Helper.afterToken, htakes, hg]
  | false =>
    simp [Helper.afterToken, htakes, Helper.appended_of_not_takesUser h tok htakes]

/-- A helper whose token cannot be fetched stops where `getToken` stopped. -/
theorem Helper.call_of_token_failure (w : World) (h : Helper) (user path body : String)
    (expecedCode : Int) (headers : List String) (s : State)
    (htakes : h.takesUser = true) (hfail : (getToken w user s).1.isOk = false) :
    (h.call w user path body expecedCode headers s).2 = (getToken w user s).2 ∧
    (h.call w user path body expecedCode headers s).1.isOk = false := by
  rw [Helper.call_eq]
  rcases hg : getToken w user s with ⟨o, s1⟩
  rw [hg] at hfail
  cases o with
  | ok tok => simp [Outcome.isOk] at hfail
  | failNow which => simp [htakes, Outcome.isOk]
  | panic v => simp [htakes, Outcome.isOk]

/-- With an odd-length list `Helper.send` stops inside `sendRequest`, before any dispatch. -/
theorem Helper.send_odd (w : World) (h : Helper) (path body : String) (expecedCode : Int)
    (headers : List String) (s : State) (hodd : headers.length % 2 = 1) :
    h.send w path body expecedCode headers s
      = (match w.newRequestErr h.method ("http://" ++ getHost w ++ path) with
          | some _ => Outcome.failNow Assertion.Nil
          | none => Outcome.panic (PanicValue.error "wrong number of header arguments!"),
         { s with calls := s.calls ++ [headers] }) := by
  unfold Helper.send
  rw [sendRequest_odd w h.method path (h.bodyArg body) headers s hodd]
  cases w.newRequestErr h.method ("http://" ++ getHost w ++ path) <;> rfl

/-- With an even-length list and a request that can be constructed, `Helper.send`
dispatches exactly `builtRequest`. -/
theorem Helper.send_even_state (w : World) (h : Helper) (path body : String)
    (expecedCode : Int) (headers : List String) (s : State)
    (hnew : w.newRequestErr h.method ("http://" ++ getHost w ++ path) = none)
    (heven : headers.length % 2 = 0) :
    (h.send w path body expecedCode headers s).2
      = { s with calls := s.calls ++ [headers],
                 log := s.log ++ [builtRequest w h.method path (h.bodyArg body) headers] } := by
  unfold Helper.send
  rw [sendRequest_even w h.method path (h.bodyArg body) headers s hnew heven]
  cases w.roundTrip s.log (builtRequest w h.method path (h.bodyArg body) headers) with
  | error e => rfl
  | ok resp =>
    simp only []
    split
    · exact requireEqual_state _ _ _
    · rfl

/-- Whatever else happens, `sendRequest` records the header list it was called with. -/
theorem sendRequest_calls (w : World) (requestType path : String) (body : Option String)
    (headers : List String) (s : State) :
    (sendRequest w requestType path body headers s).2.calls = s.calls ++ [headers] := by
  unfold sendRequest
  simp only []
  repeat' split
  all_goals rfl

theorem Helper.send_calls (w : World) (h : Helper) (path body : String) (expecedCode : Int)
    (headers : List String) (s : State) :
    (h.send w path body expecedCode headers s).2.calls = s.calls ++ [headers] := by
  have hc := sendRequest_calls w h.method path (h.bodyArg body) headers s
  unfold Helper.send
  rcases hs : sendRequest w h.method path (h.bodyArg body) headers s with ⟨o, s1⟩
  rw [hs] at hc
  cases o with
  | ok resp =>
    simp only []
    split
    · rw [requireEqual_state]
      exact hc
    · exact hc
  | failNow which => exact hc
  | panic v => exact hc

theorem Helper.afterToken_calls (w : World) (h : Helper) (user : String) (s : State) :
    (h.afterToken w user s).calls = s.calls := by
  unfold Helper.afterToken
  split
  · exact getToken_calls w user s
  · rfl

/-- The header list a helper hands to `sendRequest`, once its token is available:
the caller's strings first, then the helper's own. -/
theorem Helper.call_calls (w : World) (h : Helper) (user path body : String)
    (expecedCode : Int) (headers : List String) (s : State) (tok : String)
    (htok : h.takesUser = true → (getToken w user s).1 = Outcome.ok tok) :
    (h.call w user path body expecedCode headers s).2.calls
      = s.calls ++ [headers ++ h.appended tok] := by
  rw [Helper.call_of_token w h user path body expecedCode headers s tok htok,
    Helper.send_calls, Helper.afterToken_calls]

theorem discard_state {α : Type} (x : M α) (s : State) : (x.discard s).2 = (x s).2 := by
  unfold M.discard
  simp only [bind_apply, M.bind]
  rcases x s with ⟨_ | _ | _, _⟩ <;> rfl

/-- No pair of the list has a name with canonical form `k`: the list gives `k` no value. -/
theorem pairValues_eq_nil (canon : String → String) (k : String) (l : List String)
    (hno : ∀ i, 2 * i < l.length → canon (l.getD (2 * i) "") ≠ k) :
    pairValues canon k l = [] := by
  rw [pairValues_eq_index]
  have hfilter : (List.range (l.length / 2)).filter
      (fun i => decide (canon (l.getD (2 * i) "") = k)) = [] := by
    rw [List.filter_eq_nil_iff]
    intro i hi
    have hlt : i < l.length / 2 := List.mem_range.mp hi
    have := hno i (by omega)
    simpa using this
  rw [hfilter]
  rfl

/-- C4 (amended). For each helper that appends headers of its own, the header list
the helper hands to `sendRequest` is the caller-supplied strings in their original
order first, followed by the helper-added pairs (`Authorization`, then
`Content-Type`): always for `PostUnauthorized`, and once the user's token is
available for the helpers that take a user. -/
theorem helper_headers_follow_caller_headers (w : World) (s : State)
    (user path body : String) (expecedCode : Int) (headers : List String) :
    (PostUnauthorized w path body headers s).2.calls
      = s.calls ++ [headers ++ ["Content-Type", "application/json;charset=UTF-8"]] ∧
    ∀ tok, (getToken w user s).1 = Outcome.ok tok →
      (GetAuthorized w user path headers s).2.calls
        = s.calls ++ [headers ++ ["Authorization", "Bearer " ++ tok]] ∧
      (PostAuthorized w user path body headers s).2.calls
        = s.calls ++ [headers ++ ["Authorization", "Bearer " ++ tok,
            "Content-Type", "application/json;charset=UTF-8"]] ∧
      (PatchAuthorizedAndCheckStatusCode w user path body expecedCode headers s).2.calls
        = s.calls ++ [headers ++ ["Authorization", "Bearer " ++ tok]] := by
  have h2 := Helper.call_calls w Helper.PostUnauthorized user path body expecedCode headers s
    "" (fun ht => by simp [Helper.takesUser] at ht)
  simp only [Helper.call, discard_state] at h2
  refine ⟨h2, ?_⟩
  intro tok htok
  have h1 := Helper.call_calls w Helper.GetAuthorized user path body expecedCode headers s tok
    (fun _ => htok)
  have h3 := Helper.call_calls w Helper.PostAuthorized user path body expecedCode headers s tok
    (fun _ => htok)
  have h4 := Helper.call_calls w Helper.PatchAuthorizedAndCheckStatusCode user path body
    expecedCode headers s tok (fun _ => htok)
  simp only [Helper.call, discard_state] at h1 h3 h4
  exact ⟨h1, h3, h4⟩

/-- C4 as stated fails: with the token `T1` cached for `alice`,
`GetAuthorized("alice", "/x", "Accept", "text/plain")` hands `sendRequest` the
caller's pair first and the `Authorization` pair last, not the other way round. -/
theorem GetAuthorized_appends_after_caller_headers :
    (GetAuthorized mockWorld "alice" "/x" ["Accept", "text/plain"] State.withAlice).2.calls
      = [["Accept", "text/plain", "Authorization", "Bearer T1"]] ∧
    ¬ (GetAuthorized mockWorld "alice" "/x" ["Accept", "text/plain"] State.withAlice).2.calls
      = State.withAlice.calls ++ [["Authorization", "Bearer T1"] ++ ["Accept", "text/plain"]] := by
  have h := Helper.call_calls mockWorld Helper.GetAuthorized "alice" "/x" "" 0
    ["Accept", "text/plain"] State.withAlice "T1" (fun _ => by decide)
  simp only [Helper.call, discard_state] at h
  rw [h]
  decide

/-- C7 (amended). A helper called with an odd number of trailing header strings
never returns normally and never dispatches its request: the only request that can
go out is the token request of `getToken`. When the token is available, the list
handed to `sendRequest` is still of odd length, and the call ends in the panic
`wrong number of header arguments!` if the request can be constructed, and in the
failed `require.Nil` of the construction error otherwise. -/
theorem odd_headers_never_dispatched (w : World) (h : Helper) (s : State)
    (user path body : String) (expecedCode : Int) (headers : List String)
    (hodd : headers.length % 2 = 1) :
    (h.call w user path body expecedCode headers s).1.isOk = false ∧
    (h.call w user path body expecedCode headers s).2.log = (h.afterToken w user s).log ∧
    ∀ tok, (h.takesUser = true → (getToken w user s).1 = Outcome.ok tok) →
      (∃ l, (h.call w user path body expecedCode headers s).2.calls = s.calls ++ [l] ∧
        l.length % 2 = 1) ∧
      (h.call w user path body expecedCode headers s).1
        = match w.newRequestErr h.method ("http://" ++ getHost w ++ path) with
          | some _ => Outcome.failNow Assertion.Nil
          | none => Outcome.panic (PanicValue.error "wrong number of header arguments!") := by
  have hlen : ∀ tok, (headers ++ h.appended tok).length % 2 = 1 := by
    intro tok
    have := Helper.appended_length h tok
    rw [List.length_append]
    omega
  have hsent : ∀ tok, (h.takesUser = true → (getToken w user s).1 = Outcome.ok tok) →
      h.call w user path body expecedCode headers s
        = (match w.newRequestErr h.method ("http://" ++ getHost w ++ path) with
            | some _ => Outcome.failNow Assertion.Nil
            | none => Outcome.panic (PanicValue.error "wrong number of header arguments!"),
           { h.afterToken w user s with
             calls := (h.afterToken w user s).calls ++ [headers ++ h.appended tok] }) := by
    intro tok htok
    rw [Helper.call_of_token w h user path body expecedCode headers s tok htok,
      Helper.send_odd w h path body expecedCode _ _ (hlen tok)]
  have hmain : (h.call w user path body expecedCode headers s).1.isOk = false ∧
      (h.call w user path body expecedCode headers s).2.log = (h.afterToken w user s).log := by
    by_cases hcase : h.takesUser = true ∧ (getToken w user s).1.isOk = false
    · have hf := Helper.call_of_token_failure w h user path body expecedCode headers s
        hcase.1 hcase.2
      refine ⟨hf.2, ?_⟩
      rw [hf.1]
      simp [Helper.afterToken, hcase.1]
    · have htok : ∃ tok, h.takesUser = true → (getToken w user s).1 = Outcome.ok tok := by
        cases hg : (getToken w user s).1 with
        | ok tok => exact ⟨tok, fun _ => rfl⟩
        | failNow which =>
          refine ⟨"", fun htakes => ?_⟩
          exact absurd ⟨htakes, by simp [hg, Outcome.isOk]⟩ hcase
        | panic v =>
          refine ⟨"", fun htakes => ?_⟩
          exact absurd ⟨htakes, by simp [hg, Outcome.isOk]⟩ hcase
      obtain ⟨tok, htok⟩ := htok
      rw [hsent tok htok]
      refine ⟨?_, rfl⟩
      cases w.newRequestErr h.method ("http://" ++ getHost w ++ path) <;> rfl
  refine ⟨hmain.1, hmain.2, ?_⟩
  intro tok htok
  refine ⟨⟨headers ++ h.appended tok, ?_, hlen tok⟩, ?_⟩
  · exact Helper.call_calls w h user path body expecedCode headers s tok htok
  · rw [hsent tok htok]

/-- C7 as stated fails: with a token endpoint that answers 500, `GetAuthorized`
called with one trailing string panics in `getToken`, not with the panic of
`sendRequest`; and where `http.NewRequest` rejects the URL, `PatchAuthorized`
called with one trailing string fails the test instead of aborting the process. -/
theorem odd_headers_other_failures_come_first :
    (Helper.call brokenAuthWorld Helper.GetAuthorized "alice" "/x" "" 200 ["Accept"]
        State.initial).1
      = Outcome.panic (PanicValue.error
          "expected statuscode 200 from authentication-service, but got: 500 Internal Server Error") ∧
    (Helper.call brokenAuthWorld Helper.GetAuthorized "alice" "/x" "" 200 ["Accept"]
        State.initial).1
      ≠ Outcome.panic (PanicValue.error "wrong number of header arguments!") ∧
    (Helper.call badURLWorld Helper.PatchAuthorized "alice" "/%zz" "" 200 ["Accept"]
        State.initial).1
      = Outcome.failNow Assertion.Nil := by
  decide

/-- The request a helper dispatches once its token is available, the request can be
constructed and the caller's header list has even length. -/
theorem Helper.call_even_state (w : World) (h : Helper) (user path body : String)
    (expecedCode : Int) (headers : List String) (s : State) (tok : String)
    (heven : headers.length % 2 = 0)
    (htok : h.takesUser = true → (getToken w user s).1 = Outcome.ok tok)
    (hnew : w.newRequestErr h.method ("http://" ++ getHost w ++ path) = none) :
    (h.call w user path body expecedCode headers s).2
      = { h.afterToken w user s with
          calls := (h.afterToken w user s).calls ++ [headers ++ h.appended tok],
          log := (h.afterToken w user s).log
            ++ [builtRequest w h.method path (h.bodyArg body) (headers ++ h.appended tok)] } := by
  have hlen : (headers ++ h.appended tok).length % 2 = 0 := by
    have := Helper.appended_length h tok
    rw [List.length_append]
    omega
  rw [Helper.call_of_token w h user path body expecedCode headers s tok htok,
    Helper.send_even_state w h path body expecedCode _ _ hnew hlen]

/-- When the request cannot be constructed, `Helper.send` dispatches nothing. -/
theorem Helper.send_log_of_newRequestErr (w : World) (h : Helper) (path body : String)
    (expecedCode : Int) (headers : List String) (s : State) (e : String)
    (hnew : w.newRequestErr h.method ("http://" ++ getHost w ++ path) = some e) :
    (h.send w path body expecedCode headers s).2.log = s.log := by
  simp [Helper.send, sendRequest, hnew]

/-- The requests a helper sends after the token phase, for an even-length caller
list: none, or the one request built from the caller's strings followed by the
helper's own, the token being the one `getToken` returned. -/
theorem Helper.sent_cases (w : World) (h : Helper) (user path body : String)
    (expecedCode : Int) (headers : List String) (s : State)
    (heven : headers.length % 2 = 0) :
    h.sent w user path body expecedCode headers s = [] ∨
    ∃ tok, (h.takesUser = true → (getToken w user s).1 = Outcome.ok tok) ∧
      h.sent w user path body expecedCode headers s
        = [builtRequest w h.method path (h.bodyArg body) (headers ++ h.appended tok)] := by
  by_cases hcase : h.takesUser = true ∧ (getToken w user s).1.isOk = false
  · left
    have hf := Helper.call_of_token_failure w h user path body expecedCode headers s
      hcase.1 hcase.2
    simp [Helper.sent, hf.1, Helper.afterToken, hcase.1]
  · have htok : ∃ tok, h.takesUser = true → (getToken w user s).1 = Outcome.ok tok := by
      cases hg : (getToken w user s).1 with
      | ok tok => exact ⟨tok, fun _ => rfl⟩
      | failNow which =>
        refine ⟨"", fun htakes => ?_⟩
        exact absurd ⟨htakes, by simp [hg, Outcome.isOk]⟩ hcase
      | panic v =>
        refine ⟨"", fun htakes => ?_⟩
        exact absurd ⟨htakes, by simp [hg, Outcome.isOk]⟩ hcase
    obtain ⟨tok, htok⟩ := htok
    cases hnew : w.newRequestErr h.method ("http://" ++ getHost w ++ path) with
    | some e =>
      left
      simp [Helper.sent, Helper.call_of_token w h user path body expecedCode headers s tok htok,
        Helper.send_log_of_newRequestErr w h path body expecedCode _ _ e hnew]
    | none =>
      right
      refine ⟨tok, htok, ?_⟩
      simp [Helper.sent,
        Helper.call_even_state w h user path body expecedCode headers s tok heven htok hnew]

/-- With the token available and a request that can be constructed, a helper called
with an even-length list sends exactly one request after the token phase. -/
theorem Helper.sent_of_token (w : World) (h : Helper) (user path body : String)
    (expecedCode : Int) (headers : List String) (s : State) (tok : String)
    (heven : headers.length % 2 = 0)
    (htok : h.takesUser = true → (getToken w user s).1 = Outcome.ok tok)
    (hnew : w.newRequestErr h.method ("http://" ++ getHost w ++ path) = none) :
    h.sent w user path body expecedCode headers s
      = [builtRequest w h.method path (h.bodyArg body) (headers ++ h.appended tok)] := by
  simp [Helper.sent,
    Helper.call_even_state w h user path body expecedCode headers s tok heven htok hnew]

/-- The token a helper used is the one the cache holds after the call. -/
theorem Helper.call_tokens (w : World) (h : Helper) (user path body : String)
    (expecedCode : Int) (headers : List String) (s : State) (tok : String)
    (htakes : h.takesUser = true) (htok : (getToken w user s).1 = Outcome.ok tok) :
    (h.call w user path body expecedCode headers s).2.tokens user = some tok := by
  have hcached : (getToken w user s).2.tokens user = some tok := by
    rcases hg : getToken w user s with ⟨o, s1⟩
    rw [hg] at htok
    simp only at htok
    subst htok
    exact getToken_ok_cached w user tok s s1 hg
  rw [Helper.call_of_token w h user path body expecedCode headers s tok (fun _ => htok)]
  have hafter : h.afterToken w user s = (getToken w user s).2 := by
    simp [Helper.afterToken, htakes]
  rw [hafter]
  unfold Helper.send
  have hsr : ∀ (hs : List String) (s1 : State),
      (sendRequest w h.method path (h.bodyArg body) hs s1).2.tokens = s1.tokens := by
    intro hs s1
    unfold sendRequest
    simp only []
    repeat' split
    all_goals rfl
  have := hsr (headers ++ h.appended tok) (getToken w user s).2
  rcases hs : sendRequest w h.method path (h.bodyArg body) (headers ++ h.appended tok)
    (getToken w user s).2 with ⟨o, s2⟩
  rw [hs] at this
  simp only at this
  cases o with
  | ok resp =>
    simp only []
    split
    · rw [requireEqual_state, this]
      exact hcached
    · rw [this]
      exact hcached
  | failNow which =>
    simp only []
    rw [this]
    exact hcached
  | panic v =>
    simp only []
    rw [this]
    exact hcached

/-- C5 (amended). For every helper that takes a user, every user and every
even-length caller-supplied header list, every request the helper sends after the
token traffic carries as `Authorization` values the caller-supplied `Authorization`
values followed by exactly one more, `Bearer ` followed by the token the cache holds
for the user; so it carries exactly one `Authorization` header whenever the caller
supplies none. (`Content-Type` and `Authorization` are taken to be different header
names.) And such a request is sent, exactly one, whenever the token is available
and the request can be constructed. -/
theorem authorized_request_bearer_token (w : World) (h : Helper) (s : State)
    (user path body : String) (expecedCode : Int) (headers : List String)
    (htakes : h.takesUser = true)
    (heven : headers.length % 2 = 0)
    (hcanon : w.canon "Content-Type" ≠ w.canon "Authorization") :
    (∀ req ∈ h.sent w user path body expecedCode headers s,
      ∃ tok, (h.call w user path body expecedCode headers s).2.tokens user = some tok ∧
        Header.Values w.canon req.Header "Authorization"
          = pairValues w.canon (w.canon "Authorization") headers ++ ["Bearer " ++ tok] ∧
        ((∀ i, 2 * i < headers.length →
            w.canon (headers.getD (2 * i) "") ≠ w.canon "Authorization") →
          Header.Values w.canon req.Header "Authorization" = ["Bearer " ++ tok])) ∧
    (∀ tok, (getToken w user s).1 = Outcome.ok tok →
      w.newRequestErr h.method ("http://" ++ getHost w ++ path) = none →
      ∃ req, h.sent w user path body expecedCode headers s = [req]) := by
  have hne : ¬ w.canon "Authorization" = w.canon "Content-Type" := fun e => hcanon e.symm
  have hvalues : ∀ tok, Header.Values w.canon
      (builtRequest w h.method path (h.bodyArg body) (headers ++ h.appended tok)).Header
      "Authorization"
        = pairValues w.canon (w.canon "Authorization") headers ++ ["Bearer " ++ tok] := by
    intro tok
    simp only [Header.Values, builtRequest, pairValues_append w.canon _ _ headers heven]
    congr 1
    cases h <;> simp_all [Helper.appended, Helper.takesUser, pairValues]
  refine ⟨?_, ?_⟩
  · intro req hreq
    rcases Helper.sent_cases w h user path body expecedCode headers s heven with
      hnone | ⟨tok, htok, hone⟩
    · rw [hnone] at hreq
      exact absurd hreq (List.not_mem_nil req)
    · rw [hone, List.mem_singleton] at hreq
      subst hreq
      refine ⟨tok, Helper.call_tokens w h user path body expecedCode headers s tok htakes
        (htok htakes), hvalues tok, ?_⟩
      intro hno
      rw [hvalues tok, pairValues_eq_nil w.canon _ headers hno]
      rfl
  · intro tok htok hnew
    exact ⟨_, Helper.sent_of_token w h user path body expecedCode headers s tok heven
      (fun _ => htok) hnew⟩

/-- C5 as stated fails: when the caller passes an `Authorization` pair of its own,
the request `GetAuthorized` sends carries two `Authorization` values, the caller's
and then the bearer token. -/
theorem GetAuthorized_keeps_caller_authorization :
    (GetAuthorized mockWorld "alice" "/x" ["Authorization", "Basic YTpi"]
        State.withAlice).2.log.map
      (fun req => Header.Values mockWorld.canon req.Header "Authorization")
      = [["Basic YTpi", "Bearer T1"]] ∧
    ¬ (GetAuthorized mockWorld "alice" "/x" ["Authorization", "Basic YTpi"]
        State.withAlice).2.log.map
      (fun req => Header.Values mockWorld.canon req.Header "Authorization")
      = [["Bearer T1"]] := by
  have h := Helper.call_even_state mockWorld Helper.GetAuthorized "alice" "/x" "" 0
    ["Authorization", "Basic YTpi"] State.withAlice "T1" (by decide) (fun _ => by decide)
    (by decide)
  simp only [Helper.call, discard_state] at h
  rw [h]
  decide

/-- C6 (amended). For every path, body and even-length caller-supplied header list,
every request a helper sends after the token traffic is such that: for each POST helper,
it is a POST and `application/json;charset=UTF-8` is among its `Content-Type`
values; for each PATCH helper, it is a PATCH and its `Content-Type` values are
exactly the values of the caller-supplied `Content-Type` pairs, in order (the
`Authorization` name being a different header name from `Content-Type`). And such a
request is sent, exactly one, whenever the token is available (for the helpers that
take a user) and the request can be constructed. -/
theorem post_sets_content_type_patch_does_not (w : World) (h : Helper) (s : State)
    (user path body : String) (expecedCode : Int) (headers : List String)
    (heven : headers.length % 2 = 0) :
    (∀ req ∈ h.sent w user path body expecedCode headers s,
      (h.isPost = true →
        req.Method = "POST" ∧
        "application/json;charset=UTF-8" ∈ Header.Values w.canon req.Header "Content-Type") ∧
      (h.isPatch = true → w.canon "Authorization" ≠ w.canon "Content-Type" →
        req.Method = "PATCH" ∧
        Header.Values w.canon req.Header "Content-Type"
          = pairValues w.canon (w.canon "Content-Type") headers)) ∧
    (∀ tok, (h.takesUser = true → (getToken w user s).1 = Outcome.ok tok) →
      w.newRequestErr h.method ("http://" ++ getHost w ++ path) = none →
      ∃ req, h.sent w user path body expecedCode headers s = [req]) := by
  refine ⟨?_, ?_⟩
  · intro req hreq
    rcases Helper.sent_cases w h user path body expecedCode headers s heven with
      hnone | ⟨tok, _, hone⟩
    · rw [hnone] at hreq
      exact absurd hreq (List.not_mem_nil req)
    · rw [hone, List.mem_singleton] at hreq
      subst hreq
      refine ⟨?_, ?_⟩
      · intro hpost
        refine ⟨by cases h <;> simp_all [Helper.isPost, Helper.method, builtRequest], ?_⟩
        simp only [Header.Values, builtRequest, pairValues_append w.canon _ _ headers heven]
        apply List.mem_append_right
        cases h <;> simp_all [Helper.isPost, Helper.appended, pairValues]
        all_goals split <;> simp
      · intro hpatch hcanon
        have hne : ¬ w.canon "Content-Type" = w.canon "Authorization" :=
          fun e => hcanon e.symm
        refine ⟨by cases h <;> simp_all [Helper.isPatch, Helper.method, builtRequest], ?_⟩
        simp only [Header.Values, builtRequest, pairValues_append w.canon _ _ headers heven]
        cases h <;> simp_all [Helper.isPatch, Helper.appended, pairValues]
  · intro tok htok hnew
    exact ⟨_, Helper.sent_of_token w h user path body expecedCode headers s tok heven
      htok hnew⟩

/-- C6 as stated fails: where `http.NewRequest` rejects the URL, `PostUnauthorized`
called with no extra headers fails the test and sends no request at all, so no
request carrying the JSON content type goes out for that path. -/
theorem PostUnauthorized_sends_nothing_for_bad_url :
    ([] : List String).length % 2 = 0 ∧
    (PostUnauthorized badURLWorld "/%zz" "" [] State.initial).1.isOk = false ∧
    (PostUnauthorized badURLWorld "/%zz" "" [] State.initial).2.log.length = 0 ∧
    (Helper.sent badURLWorld Helper.PostUnauthorized "" "/%zz" "" 204 []
      State.initial).length = 0 := by
  decide

/-! ## Lookup in a collection -/

/-- The loop of `FindLocalById` passes over elements whose field is a string other
than `id`. -/
theorem findLoop_skip (id idField : String) (rest : List Obj) :
    ∀ pre : List Obj,
      (∀ x ∈ pre, ∃ s, x.index idField = some (Json.str s) ∧ s ≠ id) →
      findLoop id idField (pre ++ rest) = findLoop id idField rest
  | [], _ => rfl
  | x :: pre, hpre => by
    obtain ⟨s, hs, hne⟩ := hpre x (List.mem_cons_self x pre)
    have ih := findLoop_skip id idField rest pre
      (fun y hy => hpre y (List.mem_cons_of_mem x hy))
    simp [findLoop, hs, assertString, hne, ih]

/-- On a collection of objects the two lookups run the same loop. -/
theorem findRawLoop_map_obj (id idField : String) :
    ∀ collection : List Obj,
      findRawLoop id idField (collection.map Json.obj) = findLoop id idField collection
  | [] => rfl
  | v :: rest => by
    have ih := findRawLoop_map_obj id idField rest
    simp only [List.map_cons, findRawLoop, findLoop, assertObj, ih]

theorem FindRawLocalById_map_obj (collection : List Obj) (id idField : String) :
    FindRawLocalById (collection.map Json.obj) id idField
      = FindLocalById collection id idField := by
  simp only [FindRawLocalById, FindLocalById, findRawLoop_map_obj]

/-- C8 (amended). `FindLocalById`, and `FindRawLocalById` on the same elements as
dynamic values, scan in input order. If every element before the first one whose
`idField` is the string `id` has a string under `idField`, that first match is
returned; if every element has a string other than `id` under `idField`, the
presence assertion fails; and if the scan meets an element whose `idField` is absent
or not a string before any match, the call panics. -/
theorem FindLocalById_first_match (collection : List Obj) (id idField : String) :
    (∀ pre v post, collection = pre ++ v :: post →
      (∀ x ∈ pre, ∃ s, x.index idField = some (Json.str s) ∧ s ≠ id) →
      v.index idField = some (Json.str id) →
      FindLocalById collection id idField = Outcome.ok v ∧
      FindRawLocalById (collection.map Json.obj) id idField = Outcome.ok v) ∧
    ((∀ x ∈ collection, ∃ s, x.index idField = some (Json.str s) ∧ s ≠ id) →
      FindLocalById collection id idField = Outcome.failNow Assertion.NotNil ∧
      FindRawLocalById (collection.map Json.obj) id idField
        = Outcome.failNow Assertion.NotNil) ∧
    (∀ pre v post, collection = pre ++ v :: post →
      (∀ x ∈ pre, ∃ s, x.index idField = some (Json.str s) ∧ s ≠ id) →
      (∀ s, v.index idField ≠ some (Json.str s)) →
      FindLocalById collection id idField = Outcome.panic PanicValue.interfaceConversion ∧
      FindRawLocalById (collection.map Json.obj) id idField
        = Outcome.panic PanicValue.interfaceConversion) := by
  refine ⟨?_, ?_, ?_⟩
  · intro pre v post hsplit hpre hv
    have hloop : findLoop id idField collection = Except.ok (some v) := by
      rw [hsplit, findLoop_skip id idField (v :: post) pre hpre]
      simp [findLoop, hv, assertString]
    rw [FindRawLocalById_map_obj]
    simp [FindLocalById, hloop]
  · intro hall
    have hloop : findLoop id idField collection = Except.ok none := by
      have := findLoop_skip id idField [] collection hall
      rw [List.append_nil] at this
      rw [this]
      rfl
    rw [FindRawLocalById_map_obj]
    simp [FindLocalById, hloop]
  · intro pre v post hsplit hpre hv
    have hassert : assertString (v.index idField) = none := by
      cases hidx : v.index idField with
      | none => rfl
      | some x =>
        cases x with
        | str t => exact absurd hidx (hv t)
        | _ => rfl
    have hloop : findLoop id idField collection
        = Except.error PanicValue.interfaceConversion := by
      rw [hsplit, findLoop_skip id idField (v :: post) pre hpre]
      simp [findLoop, hassert]
    rw [FindRawLocalById_map_obj]
    simp [FindLocalById, hloop]

/-- C8 as stated fails: the second element has the string `b` under `id`, but the
first has a number there, and the scan panics at it instead of returning the second;
and a collection whose only element lacks the field makes the call panic instead of
failing the presence assertion. -/
theorem FindLocalById_panics_on_other_fields :
    FindLocalById [[("id", Json.num "5")], [("id", Json.str "b")]] "b" "id"
      = Outcome.panic PanicValue.interfaceConversion ∧
    FindLocalById [[("id", Json.num "5")], [("id", Json.str "b")]] "b" "id"
      ≠ Outcome.ok [("id", Json.str "b")] ∧
    FindRawLocalById [Json.obj [("id", Json.num "5")], Json.obj [("id", Json.str "b")]] "b" "id"
      = Outcome.panic PanicValue.interfaceConversion ∧
    FindLocalById [[("name", Json.str "a")]] "b" "id"
      = Outcome.panic PanicValue.interfaceConversion ∧
    FindLocalById [[("name", Json.str "a")]] "b" "id" ≠ Outcome.failNow Assertion.NotNil := by
  have h1 : FindLocalById [[("id", Json.num "5")], [("id", Json.str "b")]] "b" "id"
      = Outcome.panic PanicValue.interfaceConversion := rfl
  have h2 : FindLocalById [[("name", Json.str "a")]] "b" "id"
      = Outcome.panic PanicValue.interfaceConversion := rfl
  refine ⟨h1, ?_, rfl, h2, ?_⟩
  · rw [h1]
    exact fun h => Outcome.noConfusion h
  · rw [h2]
    exact fun h => Outcome.noConfusion h

/-! ## Registration -/

set_option maxRecDepth 20000

theorem bind_pure_state {α β : Type} (x : M α) (f : α → β) (s : State) :
    ((x >>= fun a => (pure (f a) : M β)) s).2 = (x s).2 := by
  simp only [bind_apply, M.bind]
  rcases x s with ⟨_ | _ | _, _⟩ <;> rfl

/-- Trimming commas leaves alone a string whose last character is not a comma. -/
theorem TrimRight_of_last (x l : String) (init : List Char) (c : Char)
    (hl : l.data = init ++ [c]) (hc : c ≠ ',') : TrimRight (x ++ l) "," = x ++ l := by
  apply String.ext
  simp [TrimRight, String.data_append, hl, List.dropWhile_cons, hc]

/-- Trimming commas removes the one comma after a closing quote. -/
theorem TrimRight_quote_comma (x : String) : TrimRight (x ++ "\",") "," = x ++ "\"" := by
  apply String.ext
  simp [TrimRight, String.data_append]

/-- Whatever the UUIDs, with no authorities the assembled body ends in `[}]}`: the
closing brace of line 64 has no authority object to close. -/
theorem userPayload_nil (userId username : String) :
    userPayload userId username []
      = "\x7b\n\t\t\"id\" : \"" ++ userId ++ "\",\n\t\t\"username\": \"" ++ username
        ++ "\",\n\t\t\"password\": \"" ++ username
        ++ "\",\n\t\t\"enabled\": true,\n\t\t\"authorities\": [" ++ "\x7d]\x7d" := by
  simp only [userPayload, List.foldl_nil]
  rw [TrimRight_of_last _ "\",\n\t\t\"enabled\": true,\n\t\t\"authorities\": ["
    "\",\n\t\t\"enabled\": true,\n\t\t\"authorities\": ".data '[' (by decide) (by decide)]

/-- Whatever the UUIDs, with two authorities the assembled body closes only the
last authority object: the first one is still open when the second begins. -/
theorem userPayload_two (userId username a b : String) :
    userPayload userId username [a, b]
      = "\x7b\n\t\t\"id\" : \"" ++ userId ++ "\",\n\t\t\"username\": \"" ++ username
        ++ "\",\n\t\t\"password\": \"" ++ username
        ++ "\",\n\t\t\"enabled\": true,\n\t\t\"authorities\": ["
        ++ "\x7b\"authority\":\"" ++ a ++ "\"," ++ "\x7b\"authority\":\"" ++ b ++ "\""
        ++ "\x7d]\x7d" := by
  simp only [userPayload, List.foldl_cons, List.foldl_nil]
  rw [TrimRight_quote_comma]

/-- Reading a concatenation is reading its parts one after the other. -/
theorem readAll_append (xs ys : List Char) :
    ∀ r : Reader, readAll (xs ++ ys) r = (readAll xs r).bind (readAll ys) := by
  induction xs with
  | nil =>
    intro r
    rfl
  | cons c cs ih =>
    intro r
    simp only [List.cons_append, readAll]
    cases r.step c with
    | none => rfl
    | some r1 => exact ih r1

/-- No reader state accepts an opening bracket right after a complete value. -/
theorem stepAfterValue_open_bracket (stack : List Frame) (result : Option Json) :
    stepAfterValue stack result '[' = none := by
  rcases stack with _ | ⟨_ | _, _⟩ <;> rfl

/-- No keyword contains an opening bracket. -/
theorem Keyword.text_ne_open_bracket (kw : Keyword) (pos : Nat) :
    kw.text[pos]? ≠ some '[' := by
  cases kw <;> rcases pos with _ | _ | _ | _ | _ | _ <;>
    first
      | decide
      | simp [Keyword.text]

/-- In whatever state the reader is, the characters `[}]}` do not complete a JSON
text: either they are rejected, or they are swallowed by an open string. -/
theorem readAll_open_bracket_close_brace (r : Reader) :
    (readAll "[\x7d]\x7d".data r).bind Reader.finish = none := by
  rcases r with ⟨stack, scan, result⟩
  cases scan with
  | value => rfl
  | firstElem => rfl
  | firstKey => rfl
  | key => rfl
  | colon k => rfl
  | afterValue => rcases stack with _ | ⟨_ | _, _⟩ <;> rfl
  | str acc isKey => cases isKey <;> cases stack <;> rfl
  | esc acc isKey => rfl
  | uni acc isKey hi digits value => rfl
  | strHi acc isKey hi => cases isKey <;> cases stack <;> rfl
  | escHi acc isKey hi => rfl
  | lit kw pos =>
    have hne := Keyword.text_ne_open_bracket kw pos
    simp only [readAll, Reader.step, String.data]
    cases hpos : kw.text[pos]? with
    | none => rfl
    | some e =>
      have he : ¬ '[' = e := by
        intro h
        rw [hpos, ← h] at hne
        exact hne rfl
      simp [he]
  | num acc pos =>
    have hnext : numNext pos '[' = none := by cases pos <;> rfl
    simp only [readAll, Reader.step, String.data, hnext]
    cases pos.final
    · rfl
    · simp [stepAfterValue_open_bracket]

/-- No text that ends in `[}]}` is well-formed JSON. -/
theorem wellFormedJson_append_open_bracket_close_brace (x : String) :
    wellFormedJson (x ++ "[\x7d]\x7d") = false := by
  have h := readAll_append x.data "[\x7d]\x7d".data
    { stack := [], scan := Scan.value, result := none }
  simp only [wellFormedJson, parseJson, String.data_append, h]
  cases hx : readAll x.data { stack := [], scan := Scan.value, result := none } with
  | none => rfl
  | some r =>
    have hr := readAll_open_bracket_close_brace r
    simp only [Option.bind]
    cases hy : readAll "[\x7d]\x7d".data r with
    | none => rfl
    | some r1 =>
      rw [hy] at hr
      simp only [Option.bind] at hr
      simp [hr]

/-- Whatever the UUIDs, with no authorities the assembled body is not well-formed
JSON. -/
theorem userPayload_nil_malformed (userId username : String) :
    wellFormedJson (userPayload userId username []) = false := by
  have hlit : "\",\n\t\t\"enabled\": true,\n\t\t\"authorities\": [" ++ "\x7d]\x7d"
      = "\",\n\t\t\"enabled\": true,\n\t\t\"authorities\": " ++ "[\x7d]\x7d" := by decide
  rw [userPayload_nil, String.append_assoc, hlit, ← String.append_assoc]
  exact wellFormedJson_append_open_bracket_close_brace _

/-- Plain characters inside a string are collected one by one. -/
theorem readAll_plain (stack : List Frame) (isKey : Bool) (result : Option Json) :
    ∀ (cs acc : List Char), cs.all plainChar = true →
      readAll cs { stack := stack, scan := Scan.str acc isKey, result := result }
        = some { stack := stack, scan := Scan.str (cs.reverse ++ acc) isKey, result := result }
  | [], acc, _ => rfl
  | c :: cs, acc, h => by
    simp only [List.all_cons, Bool.and_eq_true] at h
    have hc := h.1
    simp only [plainChar, Bool.and_eq_true, decide_eq_true_eq] at hc
    have ih := readAll_plain stack isKey result cs (c :: acc) h.2
    have hlt : ¬ c.toNat < 32 := by omega
    simp only [readAll, Reader.step, hc.1.1, hc.1.2, hlt, if_false, ih]
    simp

/-- The loop of `RegisterNewUser` only appends: what stands in front stays in front. -/
theorem foldl_append_left (x : String) :
    ∀ (rest : List String) (y : String),
      rest.foldl (fun user v => user ++ "\x7b\"authority\":\"" ++ v ++ "\",") (x ++ y)
        = x ++ rest.foldl (fun user v => user ++ "\x7b\"authority\":\"" ++ v ++ "\",") y
  | [], y => rfl
  | v :: rest, y => by
    simp only [List.foldl_cons]
    have := foldl_append_left x rest (y ++ "\x7b\"authority\":\"" ++ v ++ "\",")
    simp only [String.append_assoc] at this ⊢
    exact this


/-- Trimming commas does not reach into a part that ends in another character. -/
theorem TrimRight_append_of_last (x y : String) (init : List Char) (c : Char)
    (hx : x.data = init ++ [c]) (hc : c ≠ ',') :
    TrimRight (x ++ y) "," = x ++ TrimRight y "," := by
  apply String.ext
  simp only [TrimRight, String.data_append, List.reverse_append, List.dropWhile_append, hx]
  split
  · rename_i hempty
    rw [List.isEmpty_iff] at hempty
    rw [hempty]
    simp [List.dropWhile_cons, hc]
  · simp

/-- A text whose beginning is rejected is not well-formed. -/
theorem wellFormedJson_of_prefix_rejected (x y : String)
    (h : readAll x.data { stack := [], scan := Scan.value, result := none } = none) :
    wellFormedJson (x ++ y) = false := by
  simp [wellFormedJson, parseJson, String.data_append, readAll_append, h]

/-- With two or more authorities the assembled body goes on, after the first
authority's closing quote and comma, with the opening brace of the second. -/
theorem userPayload_cons_cons (userId username a b : String) (rest : List String) :
    ∃ tail : String,
      userPayload userId username (a :: b :: rest)
        = ("\x7b\n\t\t\"id\" : \"" ++ userId ++ "\",\n\t\t\"username\": \"" ++ username
            ++ "\",\n\t\t\"password\": \"" ++ username
            ++ "\",\n\t\t\"enabled\": true,\n\t\t\"authorities\": [" ++ "\x7b\"authority\":\""
            ++ a ++ "\"," ++ "\x7b") ++ tail := by
  refine ⟨TrimRight (rest.foldl (fun user v => user ++ "\x7b\"authority\":\"" ++ v ++ "\",")
    ("\"authority\":\"" ++ b ++ "\",")) "," ++ "\x7d]\x7d", ?_⟩
  have hA : "\x7b\"authority\":\"" = "\x7b" ++ "\"authority\":\"" := by decide
  have hstep : ∀ P : String,
      P ++ "\x7b\"authority\":\"" ++ b ++ "\","
        = (P ++ "\x7b") ++ ("\"authority\":\"" ++ b ++ "\",") := by
    intro P
    rw [hA]
    simp only [String.append_assoc]
  simp only [userPayload, List.foldl_cons]
  rw [hstep, foldl_append_left,
    TrimRight_append_of_last _ _ _ (Char.ofNat 123) (String.data_append _ _) (by decide),
    String.append_assoc]

/-- Reading the fixed parts of the body, one after the other. -/
theorem readAll_id :
    readAll "\x7b\n\t\t\"id\" : \"".data { stack := [], scan := Scan.value, result := none }
      = some { stack := [Frame.obj [] "id"], scan := Scan.str [] false, result := none } := rfl

theorem readAll_enabled (fields : Obj) (key : String) (acc : List Char) :
    readAll "\",\n\t\t\"enabled\": true,\n\t\t\"authorities\": [".data
        { stack := [Frame.obj fields key], scan := Scan.str acc false, result := none }
      = some { stack := [Frame.arr [],
                Frame.obj (insertField (insertField fields key
                  (Json.str (String.mk acc.reverse))) "enabled" (Json.bool true)) "authorities"],
               scan := Scan.firstElem, result := none } := rfl

theorem readAll_authority (stack : List Frame) :
    readAll "\x7b\"authority\":\"".data
        { stack := stack, scan := Scan.firstElem, result := none }
      = some { stack := Frame.obj [] "authority" :: stack, scan := Scan.str [] false,
               result := none } := rfl

theorem readAll_quote_comma (fields : Obj) (key : String) (stack : List Frame)
    (acc : List Char) :
    readAll "\",".data
        { stack := Frame.obj fields key :: stack, scan := Scan.str acc false, result := none }
      = some { stack := Frame.obj (insertField fields key (Json.str (String.mk acc.reverse))) ""
                :: stack,
               scan := Scan.key, result := none } := rfl

theorem readAll_key_open_brace (stack : List Frame) (result : Option Json) :
    readAll "\x7b".data { stack := stack, scan := Scan.key, result := result } = none := rfl

theorem readAll_username (fields : Obj) (key : String) (acc : List Char) :
    readAll "\",\n\t\t\"username\": \"".data
        { stack := [Frame.obj fields key], scan := Scan.str acc false, result := none }
      = some { stack := [Frame.obj (insertField fields key (Json.str (String.mk acc.reverse)))
                "username"],
               scan := Scan.str [] false, result := none } := rfl

theorem readAll_password (fields : Obj) (key : String) (acc : List Char) :
    readAll "\",\n\t\t\"password\": \"".data
        { stack := [Frame.obj fields key], scan := Scan.str acc false, result := none }
      = some { stack := [Frame.obj (insertField fields key (Json.str (String.mk acc.reverse)))
                "password"],
               scan := Scan.str [] false, result := none } := rfl

/-- Reading on after a part that was read. -/
theorem readAll_then (xs ys : List Char) (r r1 : Reader) (res : Option Reader)
    (h1 : readAll xs r = some r1) (h2 : readAll ys r1 = res) :
    readAll (xs ++ ys) r = res := by
  rw [readAll_append, h1]
  exact h2

/-- Whatever the UUIDs and the authorities (the UUIDs and the first authority being
strings of plain characters), with two or more authorities the assembled body is
not well-formed JSON: after the first authority's `",` a key is expected, and the
opening brace of the second authority comes instead. -/
theorem userPayload_cons_cons_malformed (userId username a b : String) (rest : List String)
    (hid : plain userId = true) (hname : plain username = true) (ha : plain a = true) :
    wellFormedJson (userPayload userId username (a :: b :: rest)) = false := by
  obtain ⟨tail, htail⟩ := userPayload_cons_cons userId username a b rest
  rw [htail]
  apply wellFormedJson_of_prefix_rejected
  have e1 := readAll_then _ _ _ _ _ readAll_id (readAll_plain _ _ _ userId.data [] hid)
  have e2 := readAll_then _ _ _ _ _ e1 (readAll_username _ _ _)
  have e3 := readAll_then _ _ _ _ _ e2 (readAll_plain _ _ _ username.data [] hname)
  have e4 := readAll_then _ _ _ _ _ e3 (readAll_password _ _ _)
  have e5 := readAll_then _ _ _ _ _ e4 (readAll_plain _ _ _ username.data [] hname)
  have e6 := readAll_then _ _ _ _ _ e5 (readAll_enabled _ _ _)
  have e7 := readAll_then _ _ _ _ _ e6 (readAll_authority _)
  have e8 := readAll_then _ _ _ _ _ e7 (readAll_plain _ _ _ a.data [] ha)
  have e9 := readAll_then _ _ _ _ _ e8 (readAll_quote_comma _ _ _ _)
  have e10 := readAll_then _ _ _ _ _ e9 (readAll_key_open_brace _ _)
  simp only [String.data_append]
  exact e10

/-- The requests `RegisterNewUser` sends in the mock deployment, from the starting
state: one POST to `/authentication-service/users` whose body is the assembled
string for the two UUIDs drawn. -/
theorem RegisterNewUser_log (authorities : List String) :
    (RegisterNewUser mockWorld authorities State.initial).2.log.map
        (fun req => (req.Method, req.URL, req.Body))
      = [("POST", "http://127.0.0.1:9/authentication-service/users",
          some (userPayload "7c9e6679-7425-40de-944b-e07fc1f90ae7"
            "6ba7b810-9dad-41d1-80b4-00c04fd430c8" authorities))] := by
  have h1 : NewV4 mockWorld State.initial
      = (Outcome.ok "6ba7b810-9dad-41d1-80b4-00c04fd430c8",
         { State.initial with uuidCount := 1 }) := rfl
  have h2 : NewV4 mockWorld { State.initial with uuidCount := 1 }
      = (Outcome.ok "7c9e6679-7425-40de-944b-e07fc1f90ae7",
         { State.initial with uuidCount := 2 }) := rfl
  unfold RegisterNewUser
  rw [bind_of_ok _ _ _ _ _ h1, bind_of_ok _ _ _ _ _ h2, bind_pure_state]
  have h := Helper.call_even_state mockWorld Helper.PostUnauthorizedAndCheckStatusCode ""
    "/authentication-service/users"
    (userPayload "7c9e6679-7425-40de-944b-e07fc1f90ae7"
      "6ba7b810-9dad-41d1-80b4-00c04fd430c8" authorities) 204 []
    { State.initial with uuidCount := 2 } "" (by decide) (fun ht => by simp [Helper.takesUser] at ht)
    rfl
  simp only [Helper.call] at h
  rw [h]
  rfl

/-- With exactly one authority the assembled body is the intended JSON document. -/
theorem userPayload_single_authority :
    parseJson (userPayload "7c9e6679-7425-40de-944b-e07fc1f90ae7"
        "6ba7b810-9dad-41d1-80b4-00c04fd430c8" ["ROLE_X"])
      = some (Json.obj [("id", Json.str "7c9e6679-7425-40de-944b-e07fc1f90ae7"),
          ("username", Json.str "6ba7b810-9dad-41d1-80b4-00c04fd430c8"),
          ("password", Json.str "6ba7b810-9dad-41d1-80b4-00c04fd430c8"),
          ("enabled", Json.bool true),
          ("authorities", Json.arr [Json.obj [("authority", Json.str "ROLE_X")]])]) := by
  rfl

/-- C2: the code at the failing input. `RegisterNewUser("A", "B")` posts a body in
which the first authority object is never closed,
`[{"authority":"A",{"authority":"B"}]}`; the body is not well-formed JSON. The same
holds for every call with two or more authorities, whatever the UUIDs drawn (UUIDs
and first authority being strings without quote, backslash or control character). -/
theorem RegisterNewUser_two_authorities_malformed :
    (RegisterNewUser mockWorld ["A", "B"] State.initial).2.log.map
        (fun req => (req.Method, req.URL, req.Body))
      = [("POST", "http://127.0.0.1:9/authentication-service/users",
          some ("\x7b\n\t\t\"id\" : \"7c9e6679-7425-40de-944b-e07fc1f90ae7\",\n\t\t"
            ++ "\"username\": \"6ba7b810-9dad-41d1-80b4-00c04fd430c8\",\n\t\t"
            ++ "\"password\": \"6ba7b810-9dad-41d1-80b4-00c04fd430c8\",\n\t\t"
            ++ "\"enabled\": true,\n\t\t"
            ++ "\"authorities\": [\x7b\"authority\":\"A\",\x7b\"authority\":\"B\"\x7d]\x7d"))] ∧
    wellFormedJson (userPayload "7c9e6679-7425-40de-944b-e07fc1f90ae7"
      "6ba7b810-9dad-41d1-80b4-00c04fd430c8" ["A", "B"]) = false ∧
    ∀ (userId username a b : String) (rest : List String),
      plain userId = true → plain username = true → plain a = true →
      wellFormedJson (userPayload userId username (a :: b :: rest)) = false := by
  refine ⟨?_, by decide, userPayload_cons_cons_malformed⟩
  rw [RegisterNewUser_log]
  decide

/-- C3: the code at the failing input. `RegisterNewUser()` with no authorities posts
a body that ends in `"authorities": [}]}`; the body is not well-formed JSON, and
that whatever the UUIDs drawn. -/
theorem RegisterNewUser_no_authorities_malformed :
    (RegisterNewUser mockWorld [] State.initial).2.log.map
        (fun req => (req.Method, req.URL, req.Body))
      = [("POST", "http://127.0.0.1:9/authentication-service/users",
          some ("\x7b\n\t\t\"id\" : \"7c9e6679-7425-40de-944b-e07fc1f90ae7\",\n\t\t"
            ++ "\"username\": \"6ba7b810-9dad-41d1-80b4-00c04fd430c8\",\n\t\t"
            ++ "\"password\": \"6ba7b810-9dad-41d1-80b4-00c04fd430c8\",\n\t\t"
            ++ "\"enabled\": true,\n\t\t"
            ++ "\"authorities\": [\x7d]\x7d"))] ∧
    wellFormedJson (userPayload "7c9e6679-7425-40de-944b-e07fc1f90ae7"
      "6ba7b810-9dad-41d1-80b4-00c04fd430c8" []) = false ∧
    ∀ userId username : String, wellFormedJson (userPayload userId username []) = false := by
  refine ⟨?_, by decide, userPayload_nil_malformed⟩
  rw [RegisterNewUser_log]
  decide

/-! ## The properties at concrete inputs -/

/-- C9 where the token endpoint answers 500: the call panics with the status in
its message and the cache stays empty. -/
theorem getToken_failure_panics_witness :
    State.initial.tokens "alice" = none ∧
    (getToken brokenAuthWorld "alice" State.initial).1
      = Outcome.panic (PanicValue.error
          ("expected statuscode 200 from authentication-service, but got: "
            ++ "500 Internal Server Error")) ∧
    (getToken brokenAuthWorld "alice" State.initial).2.tokens = State.initial.tokens :=
  ⟨rfl,
    ((((getToken_failure_panics brokenAuthWorld State.initial "alice" rfl).2 rfl).2
      { StatusCode := 500, Status := "500 Internal Server Error", Body := "" } rfl).1
      (by decide))⟩

/-- C10 on three pairs, two of them for the same header: both values are kept, in
order. -/
theorem sendRequest_header_values_witness :
    ["Accept", "text/html", "X-Id", "1", "accept", "text/plain"].length % 2 = 0 ∧
    ∃ hdr : Header,
      addHeaders mockWorld.canon ["Accept", "text/html", "X-Id", "1", "accept", "text/plain"]
        0 Header.empty = Except.ok hdr ∧
      Header.Values mockWorld.canon hdr "ACCEPT" = ["text/html", "text/plain"] := by
  refine ⟨by decide, ?_⟩
  obtain ⟨hdr, hloop, hvalues, _⟩ := sendRequest_header_values mockWorld "GET" "/x" none
    ["Accept", "text/html", "X-Id", "1", "accept", "text/plain"] "ACCEPT" State.initial
    (by decide)
  refine ⟨hdr, hloop, ?_⟩
  rw [hvalues]
  decide

/-- C4 (amended) at concrete inputs: `PostUnauthorized` where the token endpoint is
broken, and `PostAuthorized` in the mock deployment with the token cached. -/
theorem helper_headers_follow_caller_headers_witness :
    (PostUnauthorized brokenAuthWorld "/p" "" ["Accept", "text/plain"] State.initial).2.calls
      = State.initial.calls ++ [["Accept", "text/plain"]
          ++ ["Content-Type", "application/json;charset=UTF-8"]] ∧
    (getToken mockWorld "alice" State.withAlice).1 = Outcome.ok "T1" ∧
    (PostAuthorized mockWorld "alice" "/p" "" ["Accept", "text/plain"] State.withAlice).2.calls
      = State.withAlice.calls ++ [["Accept", "text/plain"] ++ ["Authorization", "Bearer " ++ "T1",
          "Content-Type", "application/json;charset=UTF-8"]] :=
  ⟨(helper_headers_follow_caller_headers brokenAuthWorld State.initial "alice" "/p" "" 204
      ["Accept", "text/plain"]).1,
    by decide,
    ((helper_headers_follow_caller_headers mockWorld State.withAlice "alice" "/p" "" 204
      ["Accept", "text/plain"]).2 "T1" (by decide)).2.1⟩

/-- C5 (amended) in the mock deployment, from an empty cache: `PostAuthorized` sends
one request, with the one `Authorization` value `Bearer T1`. -/
theorem authorized_request_bearer_token_witness :
    ["Accept", "text/plain"].length % 2 = 0 ∧
    mockWorld.canon "Content-Type" ≠ mockWorld.canon "Authorization" ∧
    (Helper.sent mockWorld Helper.PostAuthorized "alice" "/p" "" 204
        ["Accept", "text/plain"] State.initial).map
      (fun req => Header.Values mockWorld.canon req.Header "Authorization")
      = [["Bearer T1"]] := by
  refine ⟨by decide, by decide, ?_⟩
  have hthm := authorized_request_bearer_token mockWorld Helper.PostAuthorized State.initial
    "alice" "/p" "" 204 ["Accept", "text/plain"] rfl (by decide) (by decide)
  obtain ⟨req, hsent⟩ := hthm.2 "T1" (by decide) rfl
  obtain ⟨tok, hcache, _, hone⟩ := hthm.1 req (by rw [hsent]; exact List.mem_singleton_self req)
  have htok : tok = "T1" := by
    have hT1 := Helper.call_tokens mockWorld Helper.PostAuthorized "alice" "/p" "" 204
      ["Accept", "text/plain"] State.initial "T1" rfl (by decide)
    rw [hT1] at hcache
    exact (Option.some.inj hcache).symm
  subst htok
  have hno : ∀ i, 2 * i < ["Accept", "text/plain"].length →
      mockWorld.canon (["Accept", "text/plain"].getD (2 * i) "")
        ≠ mockWorld.canon "Authorization" := by
    intro i hi
    have hi0 : i = 0 := by
      simp only [List.length_cons, List.length_nil] at hi
      omega
    subst hi0
    decide
  rw [hsent, List.map_singleton, hone hno]
  decide

/-- C6 in the mock deployment: a PATCH with a caller-supplied content type keeps
that content type alone. -/
theorem post_sets_content_type_patch_does_not_witness :
    ["Content-Type", "application/merge-patch+json"].length % 2 = 0 ∧
    (Helper.sent mockWorld Helper.PatchAuthorizedAndCheckStatusCode "alice" "/p" "" 204
        ["Content-Type", "application/merge-patch+json"] State.initial).map
      (fun req => (req.Method, Header.Values mockWorld.canon req.Header "Content-Type"))
      = [("PATCH", ["application/merge-patch+json"])] := by
  refine ⟨by decide, ?_⟩
  have hthm := post_sets_content_type_patch_does_not mockWorld
    Helper.PatchAuthorizedAndCheckStatusCode State.initial "alice" "/p" "" 204
    ["Content-Type", "application/merge-patch+json"] (by decide)
  obtain ⟨req, hsent⟩ := hthm.2 "T1" (fun _ => by decide) rfl
  have h := (hthm.1 req (by rw [hsent]; exact List.mem_singleton_self req)).2 rfl (by decide)
  rw [hsent, List.map_singleton, h.1, h.2]
  decide

/-- C7 (amended) in the mock deployment: one trailing string makes `PostUnauthorized`
panic in `sendRequest` with nothing dispatched. -/
theorem odd_headers_never_dispatched_witness :
    ["Accept"].length % 2 = 1 ∧
    (Helper.call mockWorld Helper.PostUnauthorized "" "/p" "" 204 ["Accept"]
        State.initial).1.isOk = false ∧
    (Helper.call mockWorld Helper.PostUnauthorized "" "/p" "" 204 ["Accept"]
        State.initial).2.log
      = (Helper.afterToken mockWorld Helper.PostUnauthorized "" State.initial).log :=
  have h := odd_headers_never_dispatched mockWorld Helper.PostUnauthorized State.initial
    "" "/p" "" 204 ["Accept"] (by decide)
  ⟨by decide, h.1, h.2.1⟩

/-- C8 (amended) on the collection `[{"id":"a"},{"id":"b"}]`: looking up `b` returns
the second element. -/
theorem FindLocalById_first_match_witness :
    FindLocalById [[("id", Json.str "a")], [("id", Json.str "b")]] "b" "id"
      = Outcome.ok [("id", Json.str "b")] :=
  ((FindLocalById_first_match [[("id", Json.str "a")], [("id", Json.str "b")]] "b" "id").1
    [[("id", Json.str "a")]] [("id", Json.str "b")] [] rfl
    (fun x hx => ⟨"a", by
      rw [List.mem_singleton] at hx
      subst hx
      exact ⟨rfl, by decide⟩⟩)
    rfl).1

end Testframework
